import Mathlib

/-!
# Hertz fork-transition test harness

A shallow embedding of the Go harness (`utils/utils.go`, `eip1559/tests.go`,
`eip2930/tests.go`, `config/constants.go`) together with theorems about its
polling primitives, its fail-fast test runner and its fee-policy validators.

Conventions of the embedding

* A Go `error` is a value of `Error`; only its message is ever inspected by the
  harness (`err.Error()`), so an error is its message.  A nil error is `none`.
* `uint64` quantities (block heights, gas) are `Nat`; the harness only compares
  them.  `*big.Int` quantities are `Int`.
* `time.Duration` is a `Nat` number of nanoseconds, as in Go.
* The chain endpoint is a record `Client` of responses.  A method that one
  harness function calls repeatedly (`BlockNumber`, `TransactionReceipt`) is
  indexed by the number of the call.
-/

namespace Hertz

/-! ## Go values -/

/-- A Go `error`, identified by the text `err.Error()` returns. -/
structure Error where
  msg : String
  deriving DecidableEq, Repr

/-- Go `errors.New`. -/
def errorsNew (text : String) : Error := ⟨text⟩

/-- A `common.Hash`. -/
abbrev Hash := Nat

/-- A `common.Address`. -/
abbrev Address := Nat

/-- One `time.Second`, in nanoseconds. -/
def Second : Nat := 1000000000

/-- One `time.Minute`, in nanoseconds. -/
def Minute : Nat := 60 * Second

/-! ## config/constants.go -/

/-- Block number at which the pre-Hertz test cases run. -/
def PreHertzBlockNumber : Nat := 2

/-- Block number at which the post-Hertz test cases run. -/
def PostHertzBlockNumber : Nat := 12

/-- The chain id of the test network. -/
def ChainId : Int := 1337

/-! ## go-ethereum values used by the harness -/

/-- The go-ethereum error `types.ErrTxTypeNotSupported`. -/
def ErrTxTypeNotSupported : Error := errorsNew "transaction type not supported"

/-- The go-ethereum error `core.ErrTipAboveFeeCap`. -/
def ErrTipAboveFeeCap : Error :=
  errorsNew "max priority fee per gas higher than max fee per gas"

/-- The go-ethereum constant `params.TxGas`. -/
def TxGas : Nat := 21000

/-- The go-ethereum constant `params.TxAccessListAddressGas`. -/
def TxAccessListAddressGas : Nat := 2400

/-- The go-ethereum constant `params.TxAccessListStorageKeyGas`. -/
def TxAccessListStorageKeyGas : Nat := 1900

/-- One entry of a `types.AccessList`. -/
structure AccessTuple where
  Address : Address
  StorageKeys : List Hash
  deriving DecidableEq, Repr

/-- The payload of a `types.Transaction`: the three kinds the harness builds. -/
inductive TxData where
  | LegacyTx (Nonce : Nat) (GasPrice : Int) (Gas : Nat) (To : Address) (Value : Int)
      (Data : List Nat)
  | DynamicFeeTx (ChainID : Int) (Nonce : Nat) (To : Address) (Value : Int) (Gas : Nat)
      (GasFeeCap GasTipCap : Int) (Data : List Nat) (AccessList : List AccessTuple)
  | AccessListTx (ChainID : Int) (Nonce : Nat) (To : Address) (Value : Int) (Gas : Nat)
      (Data : List Nat) (AccessList : List AccessTuple)
  deriving DecidableEq, Repr

/-- The signer handed to `types.SignTx`. -/
inductive Signer where
  | EIP155 (chainId : Int)
  | EIP2930 (chainId : Int)
  | London (chainId : Int)
  deriving DecidableEq, Repr

/-- A signed transaction: its payload and the value of `signedTx.Hash()`. -/
structure SignedTx where
  inner : TxData
  hash : Hash
  deriving DecidableEq, Repr

/-- A `types.Receipt`: the fields the harness or the chain model refers to. -/
structure Receipt where
  Status : Nat
  BlockNumber : Nat
  GasUsed : Nat
  deriving DecidableEq, Repr

/-- A `types.Block`: its base fee (nil before the fork) and the gas consumed by
each of the transactions it includes, in block order. -/
structure Block where
  baseFee : Option Int
  txGasUsed : List Nat
  deriving DecidableEq, Repr

/-- Go `block.BaseFee()`. -/
def Block.BaseFee (b : Block) : Option Int := b.baseFee

/-- Go `block.GasUsed()`: the header field, the gas consumed by all the
transactions of the block together. -/
def Block.GasUsed (b : Block) : Nat := b.txGasUsed.sum

/-- A mined transaction as `TransactionByHash` returns it: the three fee
accessors `tx.GasPrice()`, `tx.GasFeeCap()`, `tx.GasTipCap()`. -/
structure MinedTx where
  GasPrice : Int
  GasFeeCap : Int
  GasTipCap : Int
  deriving DecidableEq, Repr

/-- The triple `(tx, isPending, err)` returned by `client.TransactionByHash`. -/
structure TxLookup where
  tx : Option MinedTx
  isPending : Bool
  err : Option Error
  deriving DecidableEq, Repr

/-- The chain endpoint as one harness function observes it, with the local
signing step and the timer of the Go runtime.  `BlockNumber q` is the answer to
the `q`-th height query and `TransactionReceipt k h` the answer to the `k`-th
receipt poll for hash `h`, which takes `pollLatency k` nanoseconds to come back.
The channel `ctx.Done()` of a context with a timeout is closed by the timer of the
context, in a goroutine of its own, at or after the deadline: `doneLag` is the
number of nanoseconds by which the close comes after the deadline. -/
structure Client where
  BlockNumber : Nat → Except Error Nat
  PendingNonceAt : Address → Except Error Nat
  SuggestGasPrice : Except Error Int
  SuggestGasTipCap : Except Error Int
  SignTx : TxData → Signer → Except Error SignedTx
  SendTransaction : SignedTx → Option Error
  TransactionReceipt : Nat → Hash → Option Receipt × Option Error
  pollLatency : Nat → Nat
  doneLag : Nat
  TransactionByHash : Hash → TxLookup
  BlockByNumber : Nat → Except Error Block

/-! ## utils/utils.go -/

/-- What a return of `WaitForBlockNumber` looks like from outside: the returned
error (`none` is nil), the number of height queries made and the total time
spent in `time.Sleep`. -/
structure HeightWait where
  err : Option Error
  queries : Nat
  slept : Nat
  deriving DecidableEq, Repr

/-- The `for` loop of `WaitForBlockNumber`, having made `queries` queries and
slept `slept` nanoseconds so far; `fuel` bounds the number of iterations and
`none` means the loop is still running when the fuel is spent. -/
def WaitForBlockNumberLoop (client : Client) (blockNumber : Nat) :
    Nat → Nat → Nat → Option HeightWait
  | 0, _, _ => none
  | fuel + 1, queries, slept =>
    match client.BlockNumber queries with
    | .error err => some ⟨some err, queries + 1, slept⟩
    | .ok currentBlockNumber =>
      -- Target blockNumber reached
      if currentBlockNumber ≥ blockNumber then
        some ⟨none, queries + 1, slept⟩
      else
        WaitForBlockNumberLoop client blockNumber fuel (queries + 1) (slept + 3 * Second)

/-- Go `WaitForBlockNumber(client, blockNumber)`, run for at most `fuel`
iterations of its loop. -/
def WaitForBlockNumber (client : Client) (blockNumber : Nat) (fuel : Nat) :
    Option HeightWait :=
  WaitForBlockNumberLoop client blockNumber fuel 0 0

/-- What a return of `WaitForTransactionReceipt` looks like from outside.  The Go
function returns either `(nil, err)` or `(receipt, nil)` with a non-nil receipt;
these are `.error err` and `.ok receipt`.  `polls` counts the receipt queries made
and `returnedAt` is the clock at the return, measured from the call. -/
structure ReceiptWait where
  result : Except Error Receipt
  polls : Nat
  returnedAt : Nat

/-- The `for`/`select` loop of `WaitForTransactionReceipt` at clock `now` (nanoseconds
since the call, when the one-minute context was created) after `polls` polls.
`ctx.Done()` is ready once the timer has closed it, `client.doneLag` nanoseconds
after the deadline: an iteration that starts at the deadline itself still polls
when the close has not happened yet.  The Go test `receipt == nil || err != nil`
fails exactly for a response `(some receipt, none)`. -/
def WaitForTransactionReceiptLoop (client : Client) (txHash : Hash) (polls now : Nat) :
    ReceiptWait :=
  if 1 * Minute + client.doneLag ≤ now then
    -- case <-ctx.Done()
    ⟨.error (errorsNew "Timeout exceeded, transaction receipt not found"), polls, now⟩
  else
    match client.TransactionReceipt polls txHash with
    | (some receipt, none) => ⟨.ok receipt, polls + 1, now + client.pollLatency polls⟩
    | _ =>
      -- Wait for 5 seconds before polling again
      WaitForTransactionReceiptLoop client txHash (polls + 1)
        (now + client.pollLatency polls + 5 * Second)
termination_by 1 * Minute + client.doneLag - now
decreasing_by
  all_goals simp_wf
  all_goals simp only [Minute, Second] at *
  all_goals omega

/-- Go `WaitForTransactionReceipt(client, txHash)`. -/
def WaitForTransactionReceipt (client : Client) (txHash : Hash) : ReceiptWait :=
  WaitForTransactionReceiptLoop client txHash 0 0

/-- The clock at which the `k`-th receipt poll is issued when all the polls before
it were unsuccessful: each of them took its latency and was followed by a sleep of
5 seconds. -/
def pollStart (client : Client) : Nat → Nat
  | 0 => 0
  | k + 1 => pollStart client k + client.pollLatency k + 5 * Second

/-- The error `WaitForTransactionReceipt` creates when its context is done. -/
def ErrTimeout : Error := errorsNew "Timeout exceeded, transaction receipt not found"

/-! ## Accounts -/

/-- The address derived from `config.SenderPrivateKeyHex`; addresses are abstract
tokens here. -/
def senderAddress : Address := 1

/-- The address derived from `config.ReceiverPrivateKeyHex`. -/
def receiverAddress : Address := 2

/-- Rendering of a receipt by the `%+v` verb, over the modelled fields. -/
def fmtReceipt (r : Receipt) : String :=
  "Status:" ++ toString r.Status ++ " BlockNumber:" ++ toString r.BlockNumber
    ++ " GasUsed:" ++ toString r.GasUsed

/-- A named test case over a world state `σ`: Go `func() error` closures read and
change the chain, so a validation function maps the state before the call to the
returned error and the state after it. -/
structure TestCase (σ : Type) where
  name : String
  validationFunction : σ → Option Error × σ

/-- What a run of test cases (or of a whole phase) did: every invocation of a
validation function in order, with the case's name and the error it returned; the
message of the `log.Fatal` that ended the process, if any; the state at the end. -/
structure RunResult (σ : Type) where
  invoked : List (String × Option Error)
  fatal : Option String
  state : σ

/-- The chain over time: `chain k` is the endpoint as the `k`-th operation of a
phase (its gate query, then each of its validators) observes it; `step` counts the
operations done. -/
structure World where
  chain : Nat → Client
  step : Nat

/-- The endpoint the next operation will observe. -/
def World.client (w : World) : Client := w.chain w.step

/-- The world after one operation. -/
def World.tick (w : World) : World := { w with step := w.step + 1 }

/-- A validator of the harness, which reads the global `client`, as a validation
function on the world. -/
def onClient (validator : Client → Option Error) : World → Option Error × World :=
  fun w => (validator w.client, w.tick)

namespace eip1559

/-! ## eip1559/tests.go -/

/-- Go `sendLegacyTransaction()`. -/
def sendLegacyTransaction (client : Client) : Hash × Option Error :=
  match client.PendingNonceAt senderAddress with
  | .error err => (0, some err)
  | .ok nonce =>
    -- Set the amount of ETH to transfer
    let value : Int := 1000000000000000000
    -- Set the gas price and limit
    match client.SuggestGasPrice with
    | .error err => (0, some err)
    | .ok gasPrice =>
      let gasLimit : Nat := 21000
      let tx := TxData.LegacyTx nonce gasPrice gasLimit receiverAddress value []
      -- Sign the transaction with the sender's private key
      match client.SignTx tx (.EIP155 ChainId) with
      | .error err => (0, some err)
      | .ok signedTx =>
        -- Send the transaction to the Ethereum network
        match client.SendTransaction signedTx with
        | some err => (signedTx.hash, some err)
        | none => (signedTx.hash, none)

/-- Go `sendDynamicFeeTx(gasFeeCap, gasTipCap)`. -/
def sendDynamicFeeTx (client : Client) (gasFeeCap gasTipCap : Int) : Hash × Option Error :=
  -- Set the amount of ETH to transfer
  let value : Int := 1000000000000000000
  match client.PendingNonceAt senderAddress with
  | .error err => (0, some err)
  | .ok nonce =>
    let gasLimit : Nat := 21000
    let tx := TxData.DynamicFeeTx ChainId nonce receiverAddress value gasLimit
      gasFeeCap gasTipCap [] []
    -- Sign the transaction with the sender's private key
    match client.SignTx tx (.London ChainId) with
    | .error err => (0, some err)
    | .ok signedTx =>
      -- Send the transaction to the Ethereum network
      match client.SendTransaction signedTx with
      | some err => (signedTx.hash, some err)
      | none => (signedTx.hash, none)

/-- Go `sendDefaultDynamicTx(overPrice)`. -/
def sendDefaultDynamicTx (client : Client) (overPrice : Bool) : Hash × Option Error :=
  -- Set the gas fee cap and gas tip cap
  match client.SuggestGasPrice with
  | .error err => (0, some err)
  | .ok gasPrice =>
    match client.SuggestGasTipCap with
    | .error err => (0, some err)
    | .ok gasTipCap =>
      -- overprice transaction to outbid pending failed transaction from the account
      if overPrice then
        let overPriceAmount : Int := 10000
        sendDynamicFeeTx client (gasPrice + overPriceAmount) (gasTipCap + overPriceAmount)
      else
        sendDynamicFeeTx client gasPrice gasTipCap

/-- Go `sendSmallGasFeeCapDynamicFeeTx()`; `Quo` is truncated division. -/
def sendSmallGasFeeCapDynamicFeeTx (client : Client) : Hash × Option Error :=
  match client.SuggestGasTipCap with
  | .error err => (0, some err)
  | .ok gasTipCap =>
    -- set gas price to half of gasTipCap so that it's smaller .
    let gasPrice := Int.tdiv gasTipCap 2
    -- Verify that indeed gasPrice < gasTipCap
    if gasPrice ≥ gasTipCap then
      (0, some (errorsNew
        "gasPrice was expected to be less than gasTipCap in this test case"))
    else
      sendDynamicFeeTx client gasPrice gasTipCap

/-- Go `sendSmallGasTipCapDynamicFeeTx()`. -/
def sendSmallGasTipCapDynamicFeeTx (client : Client) : Hash × Option Error :=
  match client.SuggestGasPrice with
  | .error err => (0, some err)
  | .ok gasPrice =>
    -- set gas tip cap to half of gas price so that it's smaller.
    let gasTipCap := Int.tdiv gasPrice 2
    -- Verify that indeed gasTipCap < gasPrice
    if gasTipCap ≥ gasPrice then
      (0, some (errorsNew
        "gasTipCap was expected to be less than gasPrice in this test case"))
    else
      sendDynamicFeeTx client gasPrice gasTipCap

-- PRE-HERTZ TEST CASES

/-- Go `testLegacyTxPreHertz()`. -/
def testLegacyTxPreHertz (client : Client) : Option Error :=
  match sendLegacyTransaction client with
  | (_, some err) => some err
  | (txHash, none) =>
    match (WaitForTransactionReceipt client txHash).result with
    | .error err => some err
    | .ok receipt =>
      -- Check receipt
      if receipt.Status ≠ 1 then
        some (errorsNew ("receipt.Status != 1. Receipt: " ++ fmtReceipt receipt))
      else
        let blockNr := receipt.BlockNumber
        match client.BlockByNumber blockNr with
        | .error err => some err
        | .ok block =>
          -- BaseFee should be nil pre-Hertz
          let baseFee := block.BaseFee
          if baseFee ≠ none then
            some (errorsNew
              ("BaseFee is not nil at pre-Hertz block number " ++ toString blockNr))
          else
            none

/-- The text of `fmt.Errorf("expected ErrTxTypeNotSupported but got '%v' instead", err)`. -/
def expectedTxTypeNotSupported (err : Error) : Error :=
  errorsNew ("expected ErrTxTypeNotSupported but got \x27" ++ err.msg ++ "\x27 instead")

/-- Go `testDefaultDynamicFeeTxPreHertz()`. -/
def testDefaultDynamicFeeTxPreHertz (client : Client) : Option Error :=
  match (sendDefaultDynamicTx client false).2 with
  -- DynamicFeeTx before Hertz should give ErrTxTypeNotSupported
  | some err =>
    if err.msg ≠ ErrTxTypeNotSupported.msg then
      some (expectedTxTypeNotSupported err)
    else
      none
  | none => none

/-- Go `testSmallGasFeeCapDynamicFeeTxPreHertz()`. -/
def testSmallGasFeeCapDynamicFeeTxPreHertz (client : Client) : Option Error :=
  match (sendSmallGasFeeCapDynamicFeeTx client).2 with
  -- DynamicFeeTx before Hertz should give ErrTxTypeNotSupported
  | some err =>
    if err.msg ≠ ErrTxTypeNotSupported.msg then
      some (expectedTxTypeNotSupported err)
    else
      none
  | none => none

/-- Go `testSmallGasTipCapDynamicFeeTxPreHertz()`. -/
def testSmallGasTipCapDynamicFeeTxPreHertz (client : Client) : Option Error :=
  match (sendSmallGasTipCapDynamicFeeTx client).2 with
  -- DynamicFeeTx before Hertz should give ErrTxTypeNotSupported
  | some err =>
    if err.msg ≠ ErrTxTypeNotSupported.msg then
      some (expectedTxTypeNotSupported err)
    else
      none
  | none => some (errorsNew "error should not be nil")

/-- Go `testSuggestedPricesPreHertz()`. -/
def testSuggestedPricesPreHertz (client : Client) : Option Error :=
  -- Get the suggested gas fee cap and gas tip cap
  match client.SuggestGasPrice with
  | .error err => some err
  | .ok gasPrice =>
    match client.SuggestGasTipCap with
    | .error err => some err
    | .ok gasTipCap =>
      if gasPrice ≠ gasTipCap then
        some (errorsNew "suggested gas price != suggested gasTipCap")
      else
        none

-- POST-HERTZ TESTS

/-- Go `testSmallGasFeeCapDynamicFeeTxPostHertz()`. -/
def testSmallGasFeeCapDynamicFeeTxPostHertz (client : Client) : Option Error :=
  match (sendSmallGasFeeCapDynamicFeeTx client).2 with
  | some err =>
    if err.msg ≠ ErrTipAboveFeeCap.msg then
      some (errorsNew ("expected ErrTipAboveFeeCap but got \x27" ++ err.msg ++ "\x27 instead"))
    else
      none
  | none => some (errorsNew "error should not be nil")

/-- Go `runTestCasesSequentially(testCases)`: runs the slice of test cases
sequentially; `log.Fatal` ends the process with the printed message. -/
def runTestCasesSequentially {σ : Type} : List (TestCase σ) → σ → RunResult σ
  | [], s => ⟨[], none, s⟩
  | testCase :: rest, s =>
    match testCase.validationFunction s with
    | (some err, s') =>
      ⟨[(testCase.name, some err)], some (testCase.name ++ " FAILED: " ++ err.msg), s'⟩
    | (none, s') =>
      let r := runTestCasesSequentially rest s'
      ⟨(testCase.name, none) :: r.invoked, r.fatal, r.state⟩

/-- The slice of test cases built by `runPreHertzTests()`. -/
def preHertzTestCases : List (TestCase World) :=
  [ { name := "testLegacyTxPreHertz",
      validationFunction := onClient testLegacyTxPreHertz },
    { name := "testDefaultDynamicFeeTxPreHertz",
      validationFunction := onClient testDefaultDynamicFeeTxPreHertz },
    { name := "testSmallGasFeeCapDynamicFeeTxPreHertz",
      validationFunction := onClient testSmallGasFeeCapDynamicFeeTxPreHertz },
    { name := "testSmallGasTipCapDynamicFeeTxPreHertz",
      validationFunction := onClient testSmallGasTipCapDynamicFeeTxPreHertz },
    { name := "testSuggestedPricesPreHertz",
      validationFunction := onClient testSuggestedPricesPreHertz } ]

/-- Go `runPreHertzTests()`. -/
def runPreHertzTests (w : World) : RunResult World :=
  runTestCasesSequentially preHertzTestCases w

/-- Go `preHertzTests()`: one height query, the too-late check, then the test
cases.  The two `log.Fatal` calls end the process before any test case. -/
def preHertzTests (w : World) : RunResult World :=
  match w.client.BlockNumber 0 with
  | .error err => ⟨[], some err.msg, w.tick⟩
  | .ok blockNr =>
    if blockNr ≥ PostHertzBlockNumber then
      ⟨[], some ("Too late to run pre-Hertz tests since current block number "
        ++ toString blockNr ++ " is after Hertz hard fork block "
        ++ toString PostHertzBlockNumber ++ ".\n"), w.tick⟩
    else
      runPreHertzTests w.tick

end eip1559

namespace eip2930

/-! ## eip2930/tests.go -/

/-- Go `sendAccessListTx()`. -/
def sendAccessListTx (client : Client) : Hash × Option Error :=
  -- Set the amount of ETH to transfer
  let value : Int := 1000000000000000000
  match client.PendingNonceAt senderAddress with
  | .error err => (0, some err)
  | .ok nonce =>
    let gasLimit : Nat := 30000
    let tx := TxData.AccessListTx ChainId nonce receiverAddress value gasLimit []
      [{ Address := receiverAddress, StorageKeys := [0] }]
    -- Sign the transaction with the sender's private key
    match client.SignTx tx (.EIP2930 ChainId) with
    | .error err => (0, some err)
    | .ok signedTx =>
      -- Send the transaction to the Ethereum network
      match client.SendTransaction signedTx with
      | some err => (signedTx.hash, some err)
      | none => (signedTx.hash, none)

/-- Go `testSendAccessListTx()`. -/
def testSendAccessListTx (client : Client) : Option Error :=
  match sendAccessListTx client with
  | (_, some err) => some err
  | (txHash, none) =>
    match (WaitForTransactionReceipt client txHash).result with
    | .error err => some err
    | .ok receipt =>
      -- Check receipt
      if receipt.Status ≠ 1 then
        some (errorsNew ("receipt.Status != 1. Receipt: " ++ fmtReceipt receipt))
      else
        let blockNr := receipt.BlockNumber
        match client.BlockByNumber blockNr with
        | .error err => some err
        | .ok block =>
          let expected := TxGas + TxAccessListAddressGas + TxAccessListStorageKeyGas
          if block.GasUsed ≠ expected then
            some (errorsNew ("incorrect amount of gas spent: expected "
              ++ toString expected ++ ", got " ++ toString block.GasUsed))
          else
            none

/-- Go `runTestCasesSequentially(testCases)` of this module. -/
def runTestCasesSequentially {σ : Type} : List (TestCase σ) → σ → RunResult σ
  | [], s => ⟨[], none, s⟩
  | testCase :: rest, s =>
    match testCase.validationFunction s with
    | (some err, s') =>
      ⟨[(testCase.name, some err)], some (testCase.name ++ " FAILED: " ++ err.msg), s'⟩
    | (none, s') =>
      let r := runTestCasesSequentially rest s'
      ⟨(testCase.name, none) :: r.invoked, r.fatal, r.state⟩

/-- Go `runPreHertz2930Tests()`. -/
def runPreHertz2930Tests (client : Client) : Option Error :=
  match (sendAccessListTx client).2 with
  | none =>
    some (errorsNew "expected ErrTxTypeNotSupported but got \x60no error\x60 instead")
  | some err =>
    if err.msg ≠ ErrTxTypeNotSupported.msg then
      some (errorsNew
        ("expected ErrTxTypeNotSupported but got \x27" ++ err.msg ++ "\x27 instead"))
    else
      none

end eip2930

namespace eip1559

/-! ## eip1559/tests.go: post-Hertz validators and phases -/

/-- Rendering of a receipt by the `%v` verb, over the modelled fields. -/
def fmtReceiptValues (r : Receipt) : String :=
  toString r.Status ++ " " ++ toString r.BlockNumber ++ " " ++ toString r.GasUsed

/-- The text with which the Go runtime ends the process when a fee accessor is called
on a nil transaction.  The harness reaches that call only for a lookup answer
`(nil, false, nil)`; the crash is rendered as a failure of the validator. -/
def nilTransactionPanic : Error :=
  errorsNew "panic: runtime error: invalid memory address or nil pointer dereference"

/-- Go `testSuggestedPricesPostHertz`, a variable bound to `testSuggestedPricesPreHertz`. -/
def testSuggestedPricesPostHertz : Client → Option Error := testSuggestedPricesPreHertz

/-- Go `testLegacyTxPostHertz()`. -/
def testLegacyTxPostHertz (client : Client) : Option Error :=
  match sendLegacyTransaction client with
  | (_, some err) => some err
  | (txHash, none) =>
    match (WaitForTransactionReceipt client txHash).result with
    | .error err => some err
    | .ok receipt =>
      -- Check receipt
      if receipt.Status ≠ 1 then
        some (errorsNew ("receipt.Status != 1. Receipt: " ++ fmtReceipt receipt))
      else
        let blockNr := receipt.BlockNumber
        match client.BlockByNumber blockNr with
        | .error err => some err
        | .ok block =>
          -- BaseFee should be 0 post-Hertz
          let baseFee := block.BaseFee
          if baseFee = none ∨ baseFee ≠ some 0 then
            some (errorsNew
              ("BaseFee is not 0 at post-Hertz block number " ++ toString blockNr))
          else
            none

/-- Go `testDefaultDynamicFeeTxPostHertz()`. -/
def testDefaultDynamicFeeTxPostHertz (client : Client) : Option Error :=
  match sendDefaultDynamicTx client true with
  | (_, some err) => some err
  | (txHash, none) =>
    match (WaitForTransactionReceipt client txHash).result with
    | .error err => some err
    | .ok receipt =>
      -- Check receipt
      if receipt.Status ≠ 1 then
        some (errorsNew ("receipt.Status != 1. Receipt: " ++ fmtReceiptValues receipt))
      else
        let lookup := client.TransactionByHash txHash
        if lookup.isPending then
          some (errorsNew "transaction should not be pending")
        else
          match lookup.err with
          | some err => some err
          | none =>
            match lookup.tx with
            | none => some nilTransactionPanic
            | some tx =>
              let gasPrice := tx.GasPrice
              let gasFeeCap := tx.GasFeeCap
              let gasTipCap := tx.GasTipCap
              -- assert that gasPrice == gasFeeCap == gasTipCap
              if gasPrice ≠ gasFeeCap ∨ gasPrice ≠ gasTipCap ∨ gasTipCap ≠ gasFeeCap then
                some (errorsNew
                  ("gasPrice, gasFeeCap and gasTip cap should all be equal when base fee is 0. gasPrice = "
                    ++ toString gasPrice ++ " , gasFeeCap = " ++ toString gasFeeCap
                    ++ ", gasTipCap =" ++ toString gasTipCap))
              else
                let blockNr := receipt.BlockNumber
                match client.BlockByNumber blockNr with
                | .error err => some err
                | .ok block =>
                  -- BaseFee should be 0 post-Hertz
                  let baseFee := block.BaseFee
                  if baseFee = none ∨ baseFee ≠ some 0 then
                    some (errorsNew
                      ("BaseFee is not 0 at post-Hertz block number " ++ toString blockNr))
                  else
                    none

/-- Go `testSmallGasTipCapDynamicFeeTxPostHertz()`. -/
def testSmallGasTipCapDynamicFeeTxPostHertz (client : Client) : Option Error :=
  match sendSmallGasTipCapDynamicFeeTx client with
  | (_, some err) => some err
  | (txHash, none) =>
    match (WaitForTransactionReceipt client txHash).result with
    | .error err => some err
    | .ok receipt =>
      -- Check receipt
      if receipt.Status ≠ 1 then
        some (errorsNew ("receipt.Status != 1. Receipt: " ++ fmtReceipt receipt))
      else
        let lookup := client.TransactionByHash txHash
        if lookup.isPending then
          some (errorsNew "transaction should not be pending")
        else
          match lookup.err with
          | some err => some err
          | none =>
            match lookup.tx with
            | none => some nilTransactionPanic
            | some tx =>
              let gasPrice := tx.GasPrice
              let gasFeeCap := tx.GasFeeCap
              let gasTipCap := tx.GasTipCap
              if gasTipCap ≥ gasFeeCap then
                some (errorsNew
                  ("gas tip cap should be less than gas fee cap in this test.  gasPrice="
                    ++ toString gasPrice ++ ", gasFeeCap =" ++ toString gasFeeCap
                    ++ ", gasTipCap =" ++ toString gasTipCap))
              else if gasPrice ≠ gasFeeCap then
                some (errorsNew
                  ("gas price should be equal to gas fee cap. gasPrice="
                    ++ toString gasPrice ++ ", gasFeeCap =" ++ toString gasFeeCap
                    ++ ", gasTipCap =" ++ toString gasTipCap))
              else
                none

end eip1559

/-! ## Processes -/

/-- What a goroutine of `main` does that the rest of the process can see, in
order: a line written to standard output, a `log.Fatal` (the message is written
and `os.Exit(1)` ends the process at once, deferred calls are not run), and the
deferred `wg.Done()` of a goroutine whose phase function returned. -/
inductive Event where
  | print (line : String)
  | fatal (msg : String)
  | done
  deriving DecidableEq, Repr

/-- How the process stands: the lines on standard output and the exit status,
`none` while `main` is still blocked in `wg.Wait()`. -/
structure ProcessResult where
  stdout : List String
  exit : Option Nat
  deriving DecidableEq, Repr

/-- One possible order of the events of two goroutines: `schedule` says, step by
step, whether the first goroutine is the next to act; a goroutine with nothing left
leaves the turn to the other. -/
def interleave : List Bool → List Event → List Event → List Event
  | [], a, b => a ++ b
  | true :: schedule, e :: a, b => e :: interleave schedule a b
  | true :: _, [], b => b
  | false :: schedule, a, e :: b => e :: interleave schedule a b
  | false :: _, a, [] => a

/-- The process of `main` from `wg.Wait()` on, with `pending` goroutines not yet
done, over the events of its goroutines in the order they happen.  A `log.Fatal`
ends the process with status 1; the `wg.Done()` that brings the counter to zero
lets `main` print `ALL TESTS PASSED!` and return; with no event left `main` is
blocked. -/
def mainWait : List Event → Nat → List String → ProcessResult
  | [], _, out => ⟨out, none⟩
  | .print line :: events, pending, out => mainWait events pending (out ++ [line])
  | .fatal _ :: _, _, out => ⟨out, some 1⟩
  | .done :: events, pending, out =>
    if pending - 1 = 0 then
      ⟨out ++ ["ALL TESTS PASSED!"], some 0⟩
    else
      mainWait events (pending - 1) out

namespace eip1559

/-- The slice of test cases built by `runPostHertzTests()`. -/
def postHertzTestCases : List (TestCase World) :=
  [ { name := "testLegacyTxPostHertz",
      validationFunction := onClient testLegacyTxPostHertz },
    { name := "testDefaultDynamicFeeTxPostHertz",
      validationFunction := onClient testDefaultDynamicFeeTxPostHertz },
    { name := "testSmallGasTipCapDynamicFeeTxPostHertz",
      validationFunction := onClient testSmallGasTipCapDynamicFeeTxPostHertz },
    { name := "testSmallGasFeeCapDynamicFeeTxPostHertz",
      validationFunction := onClient testSmallGasFeeCapDynamicFeeTxPostHertz },
    { name := "testSuggestedPricesPostHertz",
      validationFunction := onClient testSuggestedPricesPostHertz } ]

/-- Go `runPostHertzTests()`. -/
def runPostHertzTests (w : World) : RunResult World :=
  runTestCasesSequentially postHertzTestCases w

/-- Go `postHertzTests()`: the wait for `PostHertzBlockNumber`, then the test cases.
`none` means that the wait has not returned within `fuel` height queries. -/
def postHertzTests (w : World) (fuel : Nat) : Option (RunResult World) :=
  match WaitForBlockNumber w.client PostHertzBlockNumber fuel with
  | none => none
  | some waited =>
    match waited.err with
    | some err => some ⟨[], some err.msg, w.tick⟩
    | none => some (runPostHertzTests w.tick)

/-- The events of the goroutine that runs `preHertzTests()`. -/
def preHertzEvents (w : World) : List Event :=
  match (preHertzTests w).fatal with
  | some msg => [.fatal msg]
  | none => [.done]

/-- The events of the goroutine that runs `postHertzTests()`, which prints
`Tests passed!` before it returns; none while the phase is still waiting. -/
def postHertzEvents (w : World) (fuel : Nat) : List Event :=
  match postHertzTests w fuel with
  | none => []
  | some r =>
    match r.fatal with
    | some msg => [.fatal msg]
    | none => [.print "Tests passed!", .done]

/-- Go `main()`: `wg.Add(2)`, one goroutine per phase, `wg.Wait()`, the success
line.  The goroutines share nothing but the endpoint, so each is run on the
answers it observes (`wPre`, `wPost`), and `schedule` fixes the order in which
their events happen. -/
def main (wPre wPost : World) (fuel : Nat) (schedule : List Bool) : ProcessResult :=
  mainWait (interleave schedule (preHertzEvents wPre) (postHertzEvents wPost fuel)) 2 []

end eip1559

namespace eip2930

/-- Go `preHertzTests()` of this module: one height query, the too-late check, then
`runPreHertz2930Tests()`. -/
def preHertzTests (w : World) : RunResult World :=
  match w.client.BlockNumber 0 with
  | .error err => ⟨[], some err.msg, w.tick⟩
  | .ok blockNr =>
    if blockNr ≥ PostHertzBlockNumber then
      ⟨[], some ("Too late to run pre-Hertz tests since current block number "
        ++ toString blockNr ++ " is after Hertz hard fork block "
        ++ toString PostHertzBlockNumber ++ ".\n"), w.tick⟩
    else
      match runPreHertz2930Tests w.tick.client with
      | some err => ⟨[("runPreHertz2930Tests", some err)], some err.msg, w.tick.tick⟩
      | none => ⟨[("runPreHertz2930Tests", none)], none, w.tick.tick⟩

end eip2930

/-! ## Sample endpoints -/

/-- An endpoint on which nothing ever happens: height 0, no receipt, every
submission accepted. -/
def idleClient : Client where
  BlockNumber := fun _ => .ok 0
  PendingNonceAt := fun _ => .ok 0
  SuggestGasPrice := .ok 1000000000
  SuggestGasTipCap := .ok 1000000000
  SignTx := fun tx _ => .ok ⟨tx, 77⟩
  SendTransaction := fun _ => none
  TransactionReceipt := fun _ _ => (none, none)
  pollLatency := fun _ => 0
  doneLag := 0
  TransactionByHash := fun _ => ⟨none, false, some (errorsNew "not found")⟩
  BlockByNumber := fun _ => .error (errorsNew "not found")

/-- An endpoint whose height climbs 3, 7, 11, 15, ... from query to query. -/
def climbingClient : Client :=
  { idleClient with BlockNumber := fun q => .ok (3 + 4 * q) }

/-- An endpoint whose height is 3, then 7, and whose third height query fails. -/
def brokenClient : Client :=
  { idleClient with
    BlockNumber := fun q => if q < 2 then .ok (3 + 4 * q) else .error (errorsNew "EOF") }

/-- An endpoint whose receipt polls take one second each: the first fails, the
second finds nothing, the third finds the receipt. -/
def confirmingClient : Client :=
  { idleClient with
    pollLatency := fun _ => Second
    TransactionReceipt := fun k _ =>
      if k = 0 then (none, some (errorsNew "connection reset"))
      else if k = 1 then (none, none)
      else (some ⟨1, 13, 21000⟩, none) }

/-- Three test cases over a counter of invocations: the second one fails. -/
def sampleTestCases : List (TestCase Nat) :=
  [ { name := "first", validationFunction := fun n => (none, n + 1) },
    { name := "second", validationFunction := fun n => (some (errorsNew "boom"), n + 1) },
    { name := "third", validationFunction := fun n => (none, n + 1) } ]

/-- A world whose endpoint reports height 15 throughout. -/
def lateWorld : World :=
  ⟨fun _ => { idleClient with BlockNumber := fun _ => .ok 15 }, 0⟩

/-- A network that accepts every submitted transaction, of any type. -/
def acceptingClient : Client := idleClient

/-- A network that rejects every submitted transaction with the error `e`. -/
def rejectingClient (e : Error) : Client :=
  { idleClient with SendTransaction := fun _ => some e }

/-- A network on which the submitted transaction is confirmed by the first poll,
with status 1 and 25300 gas of its own, in block 13, which also includes an
ordinary transfer of 21000 gas. -/
def busyBlockClient : Client :=
  { idleClient with
    TransactionReceipt := fun _ _ => (some ⟨1, 13, 25300⟩, none)
    BlockByNumber := fun _ => .ok ⟨some 0, [21000, 25300]⟩ }

/-- A network after the fork: every submission is accepted and confirmed by the
first poll with status 1 in block 13, whose base fee is 0; the mined transaction
shows gas price, fee cap and tip cap 1000010000. -/
def postForkClient : Client :=
  { idleClient with
    TransactionReceipt := fun _ _ => (some ⟨1, 13, 21000⟩, none)
    TransactionByHash := fun _ => ⟨some ⟨1000010000, 1000010000, 1000010000⟩, false, none⟩
    BlockByNumber := fun _ => .ok ⟨some 0, [21000]⟩ }

/-- A network that suggests 0 both as gas price and as tip cap; no call on it ever
fails and every submission is accepted. -/
def zeroSuggestionClient : Client :=
  { idleClient with SuggestGasPrice := .ok 0, SuggestGasTipCap := .ok 0 }

/-- A network that suggests gas price 5 and tip cap 3, and answers every
DynamicFee submission with an error that spells out the fee cap and the tip cap of
the transaction it received. -/
def feeEchoClient : Client :=
  { idleClient with
    SuggestGasPrice := .ok 5
    SuggestGasTipCap := .ok 3
    SendTransaction := fun signedTx =>
      match signedTx.inner with
      | .DynamicFeeTx _ _ _ _ _ feeCap tipCap _ _ =>
        some (errorsNew ("feeCap=" ++ toString feeCap ++ " tipCap=" ++ toString tipCap))
      | _ => none }

/-- A network before the fork, at height 1: legacy transactions are accepted and
confirmed by the first poll with status 1 in block 1, which has no base fee; every
other transaction type is rejected as not supported. -/
def preForkClient : Client :=
  { idleClient with
    BlockNumber := fun _ => .ok 1
    SendTransaction := fun signedTx =>
      match signedTx.inner with
      | .LegacyTx _ _ _ _ _ _ => none
      | _ => some ErrTxTypeNotSupported
    TransactionReceipt := fun _ _ => (some ⟨1, 1, 21000⟩, none)
    BlockByNumber := fun _ => .ok ⟨none, [21000]⟩ }

/-- A world that stays before the fork, at height 1, throughout. -/
def preForkWorld : World := ⟨fun _ => preForkClient, 0⟩

/-- The post-fork sample network at the time the small-tip-cap transaction is
mined: it shows gas price and fee cap 1000000000 and tip cap 500000000. -/
def smallTipMinedClient : Client :=
  { postForkClient with
    TransactionByHash := fun _ => ⟨some ⟨1000000000, 1000000000, 500000000⟩, false, none⟩ }

/-- A world after the fork, as the post-Hertz phase observes it: height 12 at the
gate; then the post-fork sample network, on which the small-tip-cap transaction
(third case) is mined with its tip cap below its fee cap and the small-fee-cap
submission (fourth case) is rejected with the tip-above-fee-cap error. -/
def postForkWorld : World :=
  ⟨fun k =>
    if k = 0 then { idleClient with BlockNumber := fun _ => .ok 12 }
    else if k = 3 then smallTipMinedClient
    else if k = 4 then rejectingClient ErrTipAboveFeeCap
    else postForkClient, 0⟩

/-- The idle endpoint with a timer that closes `ctx.Done()` one nanosecond after
the deadline: an iteration that starts at the deadline does not see it closed. -/
def lateTimerClient : Client :=
  { idleClient with doneLag := 1 }

/-! ## Theorems: WaitForBlockNumber -/

/-- Unfolding of one iteration that sees a height below the target. -/
theorem WaitForBlockNumberLoop_below (client : Client) (target fuel q s h : Nat)
    (hq : client.BlockNumber q = .ok h) (hlt : h < target) :
    WaitForBlockNumberLoop client target (fuel + 1) q s =
      WaitForBlockNumberLoop client target fuel (q + 1) (s + 3 * Second) := by
  simp [WaitForBlockNumberLoop, hq, Nat.not_le.mpr hlt]

/-- The loop runs through `n` below-target answers, sleeping after each. -/
theorem WaitForBlockNumberLoop_skip (client : Client) (target : Nat) :
    ∀ (n fuel q s : Nat),
      (∀ j, j < n → ∃ hj, client.BlockNumber (q + j) = .ok hj ∧ hj < target) →
      WaitForBlockNumberLoop client target (n + fuel) q s =
        WaitForBlockNumberLoop client target fuel (q + n) (s + n * (3 * Second)) := by
  intro n
  induction n with
  | zero => intro fuel q s _; simp
  | succ n ih =>
    intro fuel q s hlow
    obtain ⟨h0, hq0, hlt0⟩ := hlow 0 (Nat.succ_pos n)
    have hstep : n + 1 + fuel = (n + fuel) + 1 := by omega
    rw [hstep, WaitForBlockNumberLoop_below client target (n + fuel) q s h0 (by simpa using hq0) hlt0]
    rw [ih fuel (q + 1) (s + 3 * Second)]
    · congr 1
      · omega
      · ring
    · intro j hj
      obtain ⟨h, hq, hlt⟩ := hlow (j + 1) (by omega)
      exact ⟨h, by rw [← hq]; congr 1; omega, hlt⟩

/-- With no more fuel than there are below-target answers the loop is still
running. -/
theorem WaitForBlockNumberLoop_running (client : Client) (target : Nat) :
    ∀ (fuel n q s : Nat), fuel ≤ n →
      (∀ j, j < n → ∃ hj, client.BlockNumber (q + j) = .ok hj ∧ hj < target) →
      WaitForBlockNumberLoop client target fuel q s = none := by
  intro fuel
  induction fuel with
  | zero => intro n q s _ _; rfl
  | succ fuel ih =>
    intro n q s hle hlow
    obtain ⟨h0, hq0, hlt0⟩ := hlow 0 (by omega)
    rw [WaitForBlockNumberLoop_below client target fuel q s h0 (by simpa using hq0) hlt0]
    apply ih (n - 1) (q + 1) _ (by omega)
    intro j hj
    obtain ⟨h, hq, hlt⟩ := hlow (j + 1) (by omega)
    exact ⟨h, by rw [← hq]; congr 1; omega, hlt⟩

/-- Every return of the loop happens at a query `q + k` that was preceded by `k`
below-target answers and `k` sleeps, and is either a success on a height that
reached the target or the error of that very query. -/
theorem WaitForBlockNumberLoop_return (client : Client) (target : Nat) :
    ∀ (fuel q s : Nat) (r : HeightWait),
      WaitForBlockNumberLoop client target fuel q s = some r →
      ∃ k, k < fuel ∧ r.queries = q + k + 1 ∧ r.slept = s + k * (3 * Second) ∧
        (∀ j, j < k → ∃ hj, client.BlockNumber (q + j) = .ok hj ∧ hj < target) ∧
        ((r.err = none ∧ ∃ h, client.BlockNumber (q + k) = .ok h ∧ target ≤ h) ∨
          (∃ e, r.err = some e ∧ client.BlockNumber (q + k) = .error e)) := by
  intro fuel
  induction fuel with
  | zero => intro q s r hr; simp [WaitForBlockNumberLoop] at hr
  | succ fuel ih =>
    intro q s r hr
    rw [WaitForBlockNumberLoop] at hr
    cases hq : client.BlockNumber q with
    | error e =>
      rw [hq] at hr
      simp only [Option.some.injEq] at hr
      subst hr
      exact ⟨0, by omega, rfl, by simp, by simp, Or.inr ⟨e, rfl, by simpa using hq⟩⟩
    | ok h =>
      rw [hq] at hr
      by_cases hge : h ≥ target
      · simp only [hge, if_true, Option.some.injEq] at hr
        subst hr
        exact ⟨0, by omega, rfl, by simp, by simp, Or.inl ⟨rfl, h, by simpa using hq, hge⟩⟩
      · simp only [hge, if_false] at hr
        obtain ⟨k, hk, hqs, hsl, hlow, hlast⟩ := ih (q + 1) (s + 3 * Second) r hr
        refine ⟨k + 1, by omega, by omega, by rw [hsl]; ring, ?_, ?_⟩
        · intro j hj
          cases j with
          | zero => exact ⟨h, by simpa using hq, Nat.lt_of_not_le hge⟩
          | succ j =>
            obtain ⟨hj', hqj, hltj⟩ := hlow j (by omega)
            exact ⟨hj', by rw [← hqj]; congr 1; omega, hltj⟩
        · have hidx : q + (k + 1) = q + 1 + k := by omega
          rw [hidx]
          exact hlast

/-- C1. Against height answers `heights 0, heights 1, ...` that are all successful,
`WaitForBlockNumber` returns success exactly at the first index `i` whose height
reached the target: with fuel for more than `i` iterations it returns nil after
`i + 1` queries and `i` sleeps of 3s, and with less it has not returned; if no
height ever reaches the target it never returns; every return is a success whose
last query saw a height at or above the target and whose earlier queries all saw
heights below it; and if the first height reached the target it returns after one
query without sleeping. -/
theorem WaitForBlockNumber_returns_at_first_reached (client : Client)
    (heights : Nat → Nat) (target : Nat)
    (hok : ∀ q, client.BlockNumber q = .ok (heights q)) :
    (∀ i, (∀ j, j < i → heights j < target) → target ≤ heights i →
      (∀ fuel, i < fuel →
        WaitForBlockNumber client target fuel = some ⟨none, i + 1, i * (3 * Second)⟩) ∧
      (∀ fuel, fuel ≤ i → WaitForBlockNumber client target fuel = none)) ∧
    ((∀ j, heights j < target) → ∀ fuel, WaitForBlockNumber client target fuel = none) ∧
    (∀ fuel r, WaitForBlockNumber client target fuel = some r →
      r.err = none ∧ 1 ≤ r.queries ∧ target ≤ heights (r.queries - 1) ∧
      (∀ j, j < r.queries - 1 → heights j < target) ∧
      r.slept = (r.queries - 1) * (3 * Second)) ∧
    (target ≤ heights 0 → ∀ fuel, 0 < fuel →
      WaitForBlockNumber client target fuel = some ⟨none, 1, 0⟩) := by
  have hfirst : ∀ i, (∀ j, j < i → heights j < target) → target ≤ heights i →
      ∀ fuel, i < fuel →
        WaitForBlockNumber client target fuel = some ⟨none, i + 1, i * (3 * Second)⟩ := by
    intro i hlow hge fuel hfuel
    obtain ⟨m, rfl⟩ : ∃ m, fuel = i + (m + 1) := ⟨fuel - i - 1, by omega⟩
    unfold WaitForBlockNumber
    rw [WaitForBlockNumberLoop_skip client target i (m + 1) 0 0
      (fun j hj => ⟨heights (0 + j), hok _, by simpa using hlow j hj⟩)]
    simp [WaitForBlockNumberLoop, hok, hge]
  refine ⟨fun i hlow hge => ⟨hfirst i hlow hge, ?_⟩, ?_, ?_, ?_⟩
  · intro fuel hfuel
    exact WaitForBlockNumberLoop_running client target fuel i 0 0 hfuel
      (fun j hj => ⟨heights (0 + j), hok _, by simpa using hlow j hj⟩)
  · intro hall fuel
    exact WaitForBlockNumberLoop_running client target fuel fuel 0 0 (Nat.le_refl _)
      (fun j _ => ⟨heights (0 + j), hok _, hall _⟩)
  · intro fuel r hr
    obtain ⟨k, _, hqs, hsl, hlow, hlast⟩ :=
      WaitForBlockNumberLoop_return client target fuel 0 0 r hr
    have hk : r.queries - 1 = k := by omega
    rw [hk]
    rcases hlast with ⟨herr, h, hq, hge⟩ | ⟨e, _, hq⟩
    · have hh : heights k = h := by
        have := hok (0 + k)
        rw [hq] at this
        simpa using this.symm
      refine ⟨herr, by omega, by rw [hh]; exact hge, ?_, by simpa using hsl⟩
      intro j hj
      obtain ⟨hj', hqj, hltj⟩ := hlow j hj
      have := hok (0 + j)
      rw [hqj] at this
      have hh' : heights j = hj' := by simpa using this.symm
      rw [hh']
      exact hltj
    · have := hok (0 + k)
      rw [hq] at this
      cases this
  · intro hge fuel hfuel
    have := hfirst 0 (fun j hj => absurd hj (Nat.not_lt_zero j)) hge fuel hfuel
    simpa using this

/-- C1 at the endpoint whose height climbs 3, 7, 11, 15: target 12 is first
reached by the fourth query. -/
theorem WaitForBlockNumber_returns_at_first_reached_witness :
    (∀ q, climbingClient.BlockNumber q = .ok (3 + 4 * q)) ∧
    WaitForBlockNumber climbingClient 12 10 = some ⟨none, 3 + 1, 3 * (3 * Second)⟩ :=
  ⟨fun _ => rfl,
    ((WaitForBlockNumber_returns_at_first_reached climbingClient (fun q => 3 + 4 * q) 12
      (fun _ => rfl)).1 3 (fun j hj => by omega) (by decide)).1 10 (by decide)⟩

/-- C2. If the `i`-th height query fails with `e` after `i` answers below the
target, `WaitForBlockNumber` returns exactly `e` at that query: `i + 1` queries
were made, none after the failure, and before that query it had not returned.
Conversely every error it returns is the error of its last query. -/
theorem WaitForBlockNumber_query_error_is_fatal (client : Client) (target : Nat) :
    (∀ i e, (∀ j, j < i → ∃ hj, client.BlockNumber j = .ok hj ∧ hj < target) →
      client.BlockNumber i = .error e →
      (∀ fuel, i < fuel →
        WaitForBlockNumber client target fuel = some ⟨some e, i + 1, i * (3 * Second)⟩) ∧
      (∀ fuel, fuel ≤ i → WaitForBlockNumber client target fuel = none)) ∧
    (∀ fuel r e, WaitForBlockNumber client target fuel = some r → r.err = some e →
      1 ≤ r.queries ∧ client.BlockNumber (r.queries - 1) = .error e ∧
      ∀ j, j < r.queries - 1 → ∃ hj, client.BlockNumber j = .ok hj ∧ hj < target) := by
  refine ⟨fun i e hlow hi => ⟨?_, ?_⟩, ?_⟩
  · intro fuel hfuel
    obtain ⟨m, rfl⟩ : ∃ m, fuel = i + (m + 1) := ⟨fuel - i - 1, by omega⟩
    unfold WaitForBlockNumber
    rw [WaitForBlockNumberLoop_skip client target i (m + 1) 0 0
      (fun j hj => by simpa using hlow j hj)]
    simp [WaitForBlockNumberLoop, hi]
  · intro fuel hfuel
    exact WaitForBlockNumberLoop_running client target fuel i 0 0 hfuel
      (fun j hj => by simpa using hlow j hj)
  · intro fuel r e hr herr
    obtain ⟨k, _, hqs, _, hlow, hlast⟩ :=
      WaitForBlockNumberLoop_return client target fuel 0 0 r hr
    have hk : r.queries - 1 = k := by omega
    rw [hk]
    rcases hlast with ⟨hnone, _⟩ | ⟨e', he', hq⟩
    · rw [hnone] at herr
      cases herr
    · rw [he'] at herr
      cases herr
      exact ⟨by omega, by simpa using hq, fun j hj => by simpa using hlow j hj⟩

/-- C2 at the endpoint whose third height query fails: the failure is returned at
once, after two sleeps. -/
theorem WaitForBlockNumber_query_error_is_fatal_witness :
    brokenClient.BlockNumber 2 = .error (errorsNew "EOF") ∧
    WaitForBlockNumber brokenClient 12 10
      = some ⟨some (errorsNew "EOF"), 2 + 1, 2 * (3 * Second)⟩ :=
  ⟨rfl,
    ((WaitForBlockNumber_query_error_is_fatal brokenClient 12).1 2 (errorsNew "EOF")
      (fun j hj => by
        interval_cases j
        · exact ⟨3, rfl, by decide⟩
        · exact ⟨7, rfl, by decide⟩)
      rfl).1 10 (by decide)⟩

/-! ## Theorems: WaitForTransactionReceipt -/

/-- Unfolding at or after the deadline. -/
theorem WaitForTransactionReceiptLoop_done (client : Client) (txHash : Hash)
    (polls now : Nat) (h : 1 * Minute + client.doneLag ≤ now) :
    WaitForTransactionReceiptLoop client txHash polls now = ⟨.error ErrTimeout, polls, now⟩ := by
  rw [WaitForTransactionReceiptLoop]
  rw [one_mul] at h ⊢
  simp [h, ErrTimeout]

/-- Unfolding before the deadline on a poll that yields a receipt and no error. -/
theorem WaitForTransactionReceiptLoop_found (client : Client) (txHash : Hash)
    (polls now : Nat) (receipt : Receipt) (h : now < 1 * Minute + client.doneLag)
    (hr : client.TransactionReceipt polls txHash = (some receipt, none)) :
    WaitForTransactionReceiptLoop client txHash polls now
      = ⟨.ok receipt, polls + 1, now + client.pollLatency polls⟩ := by
  rw [WaitForTransactionReceiptLoop]
  rw [one_mul] at h ⊢
  simp [Nat.not_le.mpr h, hr]

/-- Unfolding before the deadline on a poll that yields a nil receipt or an error. -/
theorem WaitForTransactionReceiptLoop_retry (client : Client) (txHash : Hash)
    (polls now : Nat) (h : now < 1 * Minute + client.doneLag)
    (hr : (client.TransactionReceipt polls txHash).1 = none ∨
      (client.TransactionReceipt polls txHash).2 ≠ none) :
    WaitForTransactionReceiptLoop client txHash polls now
      = WaitForTransactionReceiptLoop client txHash (polls + 1)
          (now + client.pollLatency polls + 5 * Second) := by
  rw [WaitForTransactionReceiptLoop]
  rw [one_mul] at h ⊢
  rcases hresp : client.TransactionReceipt polls txHash with ⟨_ | r, _ | e⟩ <;>
    simp [Nat.not_le.mpr h, hresp] at hr ⊢

/-- A response to a receipt poll is either a receipt without error or one that the
Go test `receipt == nil || err != nil` sends to the sleep branch. -/
theorem receipt_response_cases (resp : Option Receipt × Option Error) :
    (∃ receipt, resp = (some receipt, none)) ∨ (resp.1 = none ∨ resp.2 ≠ none) := by
  rcases resp with ⟨_ | r, _ | e⟩ <;> simp

/-- Induction along the iterations of the receipt loop: a property of (polls made,
clock, what the loop returns from there) that holds at the deadline branch and at a
found receipt, and is carried backwards over a sleep, holds from every start. -/
theorem WaitForTransactionReceiptLoop_induction (client : Client) (txHash : Hash)
    (P : Nat → Nat → ReceiptWait → Prop)
    (hdone : ∀ polls now, 1 * Minute + client.doneLag ≤ now → P polls now ⟨.error ErrTimeout, polls, now⟩)
    (hfound : ∀ polls now receipt, now < 1 * Minute + client.doneLag →
      client.TransactionReceipt polls txHash = (some receipt, none) →
      P polls now ⟨.ok receipt, polls + 1, now + client.pollLatency polls⟩)
    (hretry : ∀ polls now, now < 1 * Minute + client.doneLag →
      ((client.TransactionReceipt polls txHash).1 = none ∨
        (client.TransactionReceipt polls txHash).2 ≠ none) →
      P (polls + 1) (now + client.pollLatency polls + 5 * Second)
        (WaitForTransactionReceiptLoop client txHash (polls + 1)
          (now + client.pollLatency polls + 5 * Second)) →
      P polls now
        (WaitForTransactionReceiptLoop client txHash (polls + 1)
          (now + client.pollLatency polls + 5 * Second))) :
    ∀ polls now, P polls now (WaitForTransactionReceiptLoop client txHash polls now) := by
  have main : ∀ n polls now, 1 * Minute + client.doneLag - now ≤ n →
      P polls now (WaitForTransactionReceiptLoop client txHash polls now) := by
    intro n
    induction n with
    | zero =>
      intro polls now hn
      have hd : 1 * Minute + client.doneLag ≤ now := by omega
      rw [WaitForTransactionReceiptLoop_done client txHash polls now hd]
      exact hdone polls now hd
    | succ n ih =>
      intro polls now hn
      by_cases hd : 1 * Minute + client.doneLag ≤ now
      · rw [WaitForTransactionReceiptLoop_done client txHash polls now hd]
        exact hdone polls now hd
      · have hlt : now < 1 * Minute + client.doneLag := Nat.lt_of_not_le hd
        rcases receipt_response_cases (client.TransactionReceipt polls txHash) with
          ⟨receipt, hr⟩ | hbad
        · rw [WaitForTransactionReceiptLoop_found client txHash polls now receipt hlt hr]
          exact hfound polls now receipt hlt hr
        · rw [WaitForTransactionReceiptLoop_retry client txHash polls now hlt hbad]
          apply hretry polls now hlt hbad
          apply ih
          have hs : 0 < 5 * Second := by decide
          omega
  intro polls now
  exact main (1 * Minute + client.doneLag - now) polls now (Nat.le_refl _)

/-- The clock of a poll is not before the clock of an earlier poll. -/
theorem pollStart_mono (client : Client) (j k : Nat) (h : j ≤ k) :
    pollStart client j ≤ pollStart client k := by
  induction k with
  | zero =>
    have : j = 0 := by omega
    rw [this]
  | succ k ih =>
    by_cases hjk : j = k + 1
    · rw [hjk]
    · have := ih (by omega)
      simp only [pollStart]
      omega

/-- From the `polls`-th poll at its clock, the loop reaches a later good poll `k`
issued before the deadline when all polls in between were unsuccessful. -/
theorem WaitForTransactionReceiptLoop_reaches (client : Client) (txHash : Hash)
    (k : Nat) (receipt : Receipt)
    (hbad : ∀ j, j < k → (client.TransactionReceipt j txHash).1 = none ∨
      (client.TransactionReceipt j txHash).2 ≠ none)
    (hgood : client.TransactionReceipt k txHash = (some receipt, none))
    (hissued : pollStart client k < 1 * Minute + client.doneLag) :
    ∀ d polls, polls + d = k →
      WaitForTransactionReceiptLoop client txHash polls (pollStart client polls)
        = ⟨.ok receipt, k + 1, pollStart client k + client.pollLatency k⟩ := by
  intro d
  induction d with
  | zero =>
    intro polls hp
    have : polls = k := by omega
    subst this
    exact WaitForTransactionReceiptLoop_found client txHash polls _ receipt hissued hgood
  | succ d ih =>
    intro polls hp
    have hlt : pollStart client polls < 1 * Minute + client.doneLag :=
      Nat.lt_of_le_of_lt (pollStart_mono client polls k (by omega)) hissued
    rw [WaitForTransactionReceiptLoop_retry client txHash polls _ hlt (hbad polls (by omega))]
    exact ih (polls + 1) (by omega)

/-- Every error the receipt loop returns is the timeout error, returned once the
timer has closed `ctx.Done()`, so not before the deadline. -/
theorem WaitForTransactionReceiptLoop_error (client : Client) (txHash : Hash)
    (polls now : Nat) (e : Error)
    (h : (WaitForTransactionReceiptLoop client txHash polls now).result = .error e) :
    e = ErrTimeout ∧
      1 * Minute + client.doneLag
        ≤ (WaitForTransactionReceiptLoop client txHash polls now).returnedAt := by
  refine WaitForTransactionReceiptLoop_induction client txHash
    (fun _ _ res => res.result = .error e →
      e = ErrTimeout ∧ 1 * Minute + client.doneLag ≤ res.returnedAt)
    ?_ ?_ ?_ polls now h
  · intro polls now hd he
    simp only [Except.error.injEq] at he
    exact ⟨he.symm, hd⟩
  · intro polls now receipt _ _ he
    cases he
  · intro polls now _ _ ih
    exact ih

/-- Every poll is preceded by a sleep of 5s for each poll before it. -/
theorem pollStart_ge (client : Client) (k : Nat) :
    k * (5 * Second) ≤ pollStart client k := by
  induction k with
  | zero => simp [pollStart]
  | succ k ih =>
    simp only [pollStart]
    have : (k + 1) * (5 * Second) = k * (5 * Second) + 5 * Second := by ring
    omega

/-- The receipt loop started at poll 0 and clock 0: its last poll was issued before
the timer closed `ctx.Done()`, which bounds the number of polls; a receipt it
returns is the answer of its last poll, after unsuccessful polls only. -/
theorem WaitForTransactionReceiptLoop_trace (client : Client) (txHash : Hash) :
    ∀ polls now, now = pollStart client polls →
      (polls - 1) * (5 * Second) < 1 * Minute + client.doneLag →
      (∀ j, j < polls → (client.TransactionReceipt j txHash).1 = none ∨
        (client.TransactionReceipt j txHash).2 ≠ none) →
      ((WaitForTransactionReceiptLoop client txHash polls now).polls - 1) * (5 * Second)
          < 1 * Minute + client.doneLag ∧
      ∀ receipt, (WaitForTransactionReceiptLoop client txHash polls now).result = .ok receipt →
        ∃ k, (WaitForTransactionReceiptLoop client txHash polls now).polls = k + 1 ∧
          client.TransactionReceipt k txHash = (some receipt, none) ∧
          pollStart client k < 1 * Minute + client.doneLag ∧
          (WaitForTransactionReceiptLoop client txHash polls now).returnedAt
            = pollStart client k + client.pollLatency k ∧
          ∀ j, j < k → (client.TransactionReceipt j txHash).1 = none ∨
            (client.TransactionReceipt j txHash).2 ≠ none := by
  have hbound : ∀ k, pollStart client k < 1 * Minute + client.doneLag →
      (k + 1 - 1) * (5 * Second) < 1 * Minute + client.doneLag := by
    intro k hk
    have h1 := pollStart_ge client k
    rw [Nat.add_sub_cancel]
    omega
  refine WaitForTransactionReceiptLoop_induction client txHash
    (fun polls now res => now = pollStart client polls →
      (polls - 1) * (5 * Second) < 1 * Minute + client.doneLag →
      (∀ j, j < polls → (client.TransactionReceipt j txHash).1 = none ∨
        (client.TransactionReceipt j txHash).2 ≠ none) →
      (res.polls - 1) * (5 * Second) < 1 * Minute + client.doneLag ∧
      ∀ receipt, res.result = .ok receipt →
        ∃ k, res.polls = k + 1 ∧
          client.TransactionReceipt k txHash = (some receipt, none) ∧
          pollStart client k < 1 * Minute + client.doneLag ∧
          res.returnedAt = pollStart client k + client.pollLatency k ∧
          ∀ j, j < k → (client.TransactionReceipt j txHash).1 = none ∨
            (client.TransactionReceipt j txHash).2 ≠ none)
    ?_ ?_ ?_
  · intro polls now _ _ hp _
    exact ⟨hp, fun receipt he => by cases he⟩
  · intro polls now receipt hlt hr hnow _ hbad
    subst hnow
    refine ⟨hbound polls hlt, ?_⟩
    intro receipt' he
    simp only [Except.ok.injEq] at he
    subst he
    exact ⟨polls, rfl, hr, hlt, rfl, hbad⟩
  · intro polls now hlt hr ih hnow _ hbad
    subst hnow
    apply ih rfl (hbound polls hlt)
    intro j hj
    by_cases hjp : j = polls
    · rw [hjp]
      exact hr
    · exact hbad j (by omega)

/-- When every poll from `polls` on is unsuccessful the receipt loop ends at the
deadline branch. -/
theorem WaitForTransactionReceiptLoop_never_found (client : Client) (txHash : Hash)
    (polls now : Nat)
    (hbad : ∀ k, polls ≤ k → (client.TransactionReceipt k txHash).1 = none ∨
      (client.TransactionReceipt k txHash).2 ≠ none) :
    (WaitForTransactionReceiptLoop client txHash polls now).result = .error ErrTimeout := by
  refine WaitForTransactionReceiptLoop_induction client txHash
    (fun polls _ res => (∀ k, polls ≤ k → (client.TransactionReceipt k txHash).1 = none ∨
      (client.TransactionReceipt k txHash).2 ≠ none) → res.result = .error ErrTimeout)
    ?_ ?_ ?_ polls now hbad
  · intro polls now _ _
    rfl
  · intro polls now receipt _ hr hb
    have := hb polls (Nat.le_refl _)
    rw [hr] at this
    simp at this
  · intro polls now _ _ ih hb
    exact ih (fun k hk => hb k (by omega))

/-- The receipt loop looks at a poll's answer only to tell a receipt without error
from everything else: two endpoints with the same timer, the same latencies and the
same clean receipts make it return the same. -/
theorem WaitForTransactionReceiptLoop_congr (client client' : Client) (txHash : Hash)
    (hlag : client'.doneLag = client.doneLag)
    (hlat : ∀ k, client'.pollLatency k = client.pollLatency k)
    (hsame : ∀ k receipt, client'.TransactionReceipt k txHash = (some receipt, none) ↔
      client.TransactionReceipt k txHash = (some receipt, none)) :
    ∀ polls now, WaitForTransactionReceiptLoop client txHash polls now
      = WaitForTransactionReceiptLoop client' txHash polls now := by
  refine WaitForTransactionReceiptLoop_induction client txHash
    (fun polls now res => res = WaitForTransactionReceiptLoop client' txHash polls now)
    ?_ ?_ ?_
  · intro polls now hd
    rw [WaitForTransactionReceiptLoop_done client' txHash polls now (by rw [hlag]; exact hd)]
  · intro polls now receipt hlt hr
    rw [WaitForTransactionReceiptLoop_found client' txHash polls now receipt
      (by rw [hlag]; exact hlt) ((hsame polls receipt).mpr hr), hlat]
  · intro polls now hlt hr ih
    have hbad' : (client'.TransactionReceipt polls txHash).1 = none ∨
        (client'.TransactionReceipt polls txHash).2 ≠ none := by
      rcases receipt_response_cases (client'.TransactionReceipt polls txHash) with
        ⟨receipt, hg⟩ | hb
      · have := (hsame polls receipt).mp hg
        rw [this] at hr
        simp at hr
      · exact hb
    rw [WaitForTransactionReceiptLoop_retry client' txHash polls now
      (by rw [hlag]; exact hlt) hbad', hlat]
    exact ih

/-- C3. `WaitForTransactionReceipt` treats every poll answer that is a nil receipt
or carries an error as "keep polling": before the deadline such an answer is
followed by a 5s sleep and the next iteration; the only error it ever returns is its
own timeout error, at or after the deadline; what it returns does not depend on
the answers of the polls other than through their clean receipts (so not on any
query error), for endpoints with the same timer and latencies; and if poll `k`,
issued before the deadline after unsuccessful polls only, yields a receipt with no
error, it returns exactly that receipt, after `k + 1` polls.  All of this holds
however late after the deadline the timer closes `ctx.Done()`. -/
theorem WaitForTransactionReceipt_absorbs_query_failures (client : Client) (txHash : Hash) :
    (∀ polls now, now < 1 * Minute →
      ((client.TransactionReceipt polls txHash).1 = none ∨
        (client.TransactionReceipt polls txHash).2 ≠ none) →
      WaitForTransactionReceiptLoop client txHash polls now
        = WaitForTransactionReceiptLoop client txHash (polls + 1)
            (now + client.pollLatency polls + 5 * Second)) ∧
    (∀ e, (WaitForTransactionReceipt client txHash).result = .error e →
      e = ErrTimeout ∧ 1 * Minute ≤ (WaitForTransactionReceipt client txHash).returnedAt) ∧
    (∀ client' : Client, client'.doneLag = client.doneLag →
      (∀ k, client'.pollLatency k = client.pollLatency k) →
      (∀ k receipt, client'.TransactionReceipt k txHash = (some receipt, none) ↔
        client.TransactionReceipt k txHash = (some receipt, none)) →
      WaitForTransactionReceipt client' txHash = WaitForTransactionReceipt client txHash) ∧
    (∀ k receipt,
      (∀ j, j < k → (client.TransactionReceipt j txHash).1 = none ∨
        (client.TransactionReceipt j txHash).2 ≠ none) →
      client.TransactionReceipt k txHash = (some receipt, none) →
      pollStart client k < 1 * Minute →
      WaitForTransactionReceipt client txHash
        = ⟨.ok receipt, k + 1, pollStart client k + client.pollLatency k⟩) := by
  refine ⟨?_, ?_, ?_, ?_⟩
  · intro polls now hlt hbad
    exact WaitForTransactionReceiptLoop_retry client txHash polls now
      (Nat.lt_of_lt_of_le hlt (Nat.le_add_right _ _)) hbad
  · intro e he
    have := WaitForTransactionReceiptLoop_error client txHash 0 0 e he
    exact ⟨this.1, Nat.le_trans (Nat.le_add_right _ _) this.2⟩
  · intro client' hlag hlat hsame
    exact (WaitForTransactionReceiptLoop_congr client client' txHash hlag hlat hsame 0 0).symm
  · intro k receipt hbad hgood hissued
    exact WaitForTransactionReceiptLoop_reaches client txHash k receipt hbad hgood
      (Nat.lt_of_lt_of_le hissued (Nat.le_add_right _ _)) k 0 (by omega)

/-- C3 at the endpoint whose third poll finds the receipt, after a failed poll and
an empty one: the receipt is returned at 13s, the query error is not. -/
theorem WaitForTransactionReceipt_absorbs_query_failures_witness :
    confirmingClient.TransactionReceipt 0 77 = (none, some (errorsNew "connection reset")) ∧
    pollStart confirmingClient 2 < 1 * Minute ∧
    WaitForTransactionReceipt confirmingClient 77
      = ⟨.ok ⟨1, 13, 21000⟩, 2 + 1, pollStart confirmingClient 2 + Second⟩ :=
  ⟨rfl, by decide,
    (WaitForTransactionReceipt_absorbs_query_failures confirmingClient 77).2.2.2 2 ⟨1, 13, 21000⟩
      (fun j hj => by
        interval_cases j
        · exact Or.inl rfl
        · exact Or.inl rfl)
      rfl (by decide)⟩

/-- On the idle endpoint with a timer that closes `ctx.Done()` right at the
deadline, the receipt wait makes 12 polls and times out at 60s. -/
theorem WaitForTransactionReceipt_idleClient :
    WaitForTransactionReceipt idleClient 77 = ⟨.error ErrTimeout, 12, 60 * Second⟩ := by
  unfold WaitForTransactionReceipt
  iterate 12 rw [WaitForTransactionReceiptLoop_retry idleClient 77 _ _ (by decide) (Or.inl rfl)]
  rw [WaitForTransactionReceiptLoop_done idleClient 77 _ _ (by decide)]
  rfl

/-- On the idle endpoint with a timer that closes `ctx.Done()` after the iteration
that starts at the deadline has looked at it, the receipt wait makes a 13th poll
and times out at 65s. -/
theorem WaitForTransactionReceipt_lateTimerClient :
    WaitForTransactionReceipt lateTimerClient 77 = ⟨.error ErrTimeout, 13, 65 * Second⟩ := by
  unfold WaitForTransactionReceipt
  iterate 13 rw [WaitForTransactionReceiptLoop_retry lateTimerClient 77 _ _ (by decide)
    (Or.inl rfl)]
  rw [WaitForTransactionReceiptLoop_done lateTimerClient 77 _ _ (by decide)]
  rfl

/-- C4. With an explicit clock (a poll takes its latency, an unsuccessful poll is
followed by a 5s sleep, the deadline is 60s after the call, and the timer closes
`ctx.Done()` at the deadline or `doneLag` later): `WaitForTransactionReceipt` is
total; if every poll finds no receipt it returns the timeout error with no
receipt, at a clock of at least 60s; the timeout error is the only error it can
return, never before 60s; a receipt it returns is the clean answer of its last
poll, which was issued before `ctx.Done()` was closed; and the last poll of every
run was issued before `ctx.Done()` was closed, which bounds the number of polls. -/
theorem WaitForTransactionReceipt_times_out (client : Client) (txHash : Hash) :
    ((∀ k, (client.TransactionReceipt k txHash).1 = none ∨
        (client.TransactionReceipt k txHash).2 ≠ none) →
      (WaitForTransactionReceipt client txHash).result = .error ErrTimeout ∧
      60 * Second ≤ (WaitForTransactionReceipt client txHash).returnedAt) ∧
    (∀ e, (WaitForTransactionReceipt client txHash).result = .error e →
      e = ErrTimeout ∧ 60 * Second ≤ (WaitForTransactionReceipt client txHash).returnedAt) ∧
    (∀ receipt, (WaitForTransactionReceipt client txHash).result = .ok receipt →
      ∃ k, (WaitForTransactionReceipt client txHash).polls = k + 1 ∧
        client.TransactionReceipt k txHash = (some receipt, none) ∧
        pollStart client k < 60 * Second + client.doneLag) ∧
    ((WaitForTransactionReceipt client txHash).polls - 1) * (5 * Second)
      < 60 * Second + client.doneLag := by
  have hmin : 1 * Minute = 60 * Second := by simp [Minute]
  have htrace := WaitForTransactionReceiptLoop_trace client txHash 0 0 rfl
    (by simp [Minute, Second])
    (fun j hj => absurd hj (Nat.not_lt_zero j))
  rw [hmin] at htrace
  refine ⟨?_, ?_, ?_, htrace.1⟩
  · intro hbad
    have hres := WaitForTransactionReceiptLoop_never_found client txHash 0 0
      (fun k _ => hbad k)
    have := WaitForTransactionReceiptLoop_error client txHash 0 0 ErrTimeout hres
    rw [hmin] at this
    exact ⟨hres, Nat.le_trans (Nat.le_add_right _ _) this.2⟩
  · intro e he
    have := WaitForTransactionReceiptLoop_error client txHash 0 0 e he
    rw [hmin] at this
    exact ⟨this.1, Nat.le_trans (Nat.le_add_right _ _) this.2⟩
  · intro receipt he
    obtain ⟨k, hk, hgood, hissued, _, _⟩ := htrace.2 receipt he
    exact ⟨k, hk, hgood, hissued⟩

/-- C4 at the endpoint on which no receipt ever appears and whose timer closes
`ctx.Done()` only after the iteration that starts at the deadline has looked at
it: the wait still ends in the timeout error, not before 60s. -/
theorem WaitForTransactionReceipt_times_out_witness :
    (∀ k, (lateTimerClient.TransactionReceipt k 77).1 = none ∨
      (lateTimerClient.TransactionReceipt k 77).2 ≠ none) ∧
    (WaitForTransactionReceipt lateTimerClient 77).result = .error ErrTimeout ∧
    60 * Second ≤ (WaitForTransactionReceipt lateTimerClient 77).returnedAt :=
  ⟨fun _ => Or.inl rfl,
    (WaitForTransactionReceipt_times_out lateTimerClient 77).1 (fun _ => Or.inl rfl)⟩

/-! ## Theorems: runTestCasesSequentially -/

/-- The two modules define the same runner. -/
theorem runTestCasesSequentially_modules_agree {σ : Type} (testCases : List (TestCase σ)) :
    ∀ s, eip2930.runTestCasesSequentially testCases s
      = eip1559.runTestCasesSequentially testCases s := by
  induction testCases with
  | nil => intro s; rfl
  | cons c rest ih =>
    intro s
    rw [eip2930.runTestCasesSequentially, eip1559.runTestCasesSequentially]
    rcases h : c.validationFunction s with ⟨_ | e, s'⟩
    · simp only [ih]
    · rfl

/-- One passing case in front of a run. -/
theorem runTestCasesSequentially_cons_pass {σ : Type} (c : TestCase σ)
    (rest : List (TestCase σ)) (s s' : σ) (h : c.validationFunction s = (none, s')) :
    eip1559.runTestCasesSequentially (c :: rest) s =
      ⟨(c.name, none) :: (eip1559.runTestCasesSequentially rest s').invoked,
        (eip1559.runTestCasesSequentially rest s').fatal,
        (eip1559.runTestCasesSequentially rest s').state⟩ := by
  rw [eip1559.runTestCasesSequentially, h]

/-- One failing case in front of a run. -/
theorem runTestCasesSequentially_cons_fail {σ : Type} (c : TestCase σ)
    (rest : List (TestCase σ)) (s s' : σ) (e : Error)
    (h : c.validationFunction s = (some e, s')) :
    eip1559.runTestCasesSequentially (c :: rest) s =
      ⟨[(c.name, some e)], some (c.name ++ " FAILED: " ++ e.msg), s'⟩ := by
  rw [eip1559.runTestCasesSequentially, h]

/-- A run that passes invoked every case of the list and each returned nil. -/
theorem runTestCasesSequentially_pass_invoked {σ : Type} (testCases : List (TestCase σ)) :
    ∀ s, (eip1559.runTestCasesSequentially testCases s).fatal = none →
      (eip1559.runTestCasesSequentially testCases s).invoked
        = testCases.map (fun c => (c.name, none)) := by
  induction testCases with
  | nil => intro s _; rfl
  | cons c rest ih =>
    intro s hpass
    rcases h : c.validationFunction s with ⟨_ | e, s'⟩
    · rw [runTestCasesSequentially_cons_pass c rest s s' h] at hpass ⊢
      simp only [List.map_cons, List.cons.injEq, true_and]
      exact ih s' hpass
    · rw [runTestCasesSequentially_cons_fail c rest s s' e h] at hpass
      cases hpass

/-- After a passing run of `pre`, the run of `pre ++ rest` continues with `rest`
from the state `pre` left. -/
theorem runTestCasesSequentially_append {σ : Type} (pre rest : List (TestCase σ)) :
    ∀ s, (eip1559.runTestCasesSequentially pre s).fatal = none →
      eip1559.runTestCasesSequentially (pre ++ rest) s =
        ⟨pre.map (fun c => (c.name, none)) ++
            (eip1559.runTestCasesSequentially rest
              (eip1559.runTestCasesSequentially pre s).state).invoked,
          (eip1559.runTestCasesSequentially rest
              (eip1559.runTestCasesSequentially pre s).state).fatal,
          (eip1559.runTestCasesSequentially rest
              (eip1559.runTestCasesSequentially pre s).state).state⟩ := by
  induction pre with
  | nil => intro s _; rfl
  | cons c pre ih =>
    intro s hpass
    rcases h : c.validationFunction s with ⟨_ | e, s'⟩
    · rw [runTestCasesSequentially_cons_pass c pre s s' h] at hpass
      rw [List.cons_append, runTestCasesSequentially_cons_pass c (pre ++ rest) s s' h,
        ih s' hpass, runTestCasesSequentially_cons_pass c pre s s' h]
      rfl
    · rw [runTestCasesSequentially_cons_fail c pre s s' e h] at hpass
      cases hpass

/-- A run that ends in `log.Fatal` splits the list at the first failing case. -/
theorem runTestCasesSequentially_fatal_split {σ : Type} (testCases : List (TestCase σ)) :
    ∀ s msg, (eip1559.runTestCasesSequentially testCases s).fatal = some msg →
      ∃ pre c rest e, testCases = pre ++ c :: rest ∧
        (eip1559.runTestCasesSequentially pre s).fatal = none ∧
        (c.validationFunction (eip1559.runTestCasesSequentially pre s).state).1 = some e ∧
        msg = c.name ++ " FAILED: " ++ e.msg := by
  induction testCases with
  | nil => intro s msg h; cases h
  | cons c rest ih =>
    intro s msg hfatal
    rcases h : c.validationFunction s with ⟨_ | e, s'⟩
    · rw [runTestCasesSequentially_cons_pass c rest s s' h] at hfatal
      obtain ⟨pre, c', rest', e, hsplit, hpre, hc, hmsg⟩ := ih s' msg hfatal
      refine ⟨c :: pre, c', rest', e, by rw [hsplit]; rfl, ?_, ?_, hmsg⟩
      · rw [runTestCasesSequentially_cons_pass c pre s s' h]
        exact hpre
      · rw [runTestCasesSequentially_cons_pass c pre s s' h]
        exact hc
    · rw [runTestCasesSequentially_cons_fail c rest s s' e h] at hfatal
      simp only [Option.some.injEq] at hfatal
      exact ⟨[], c, rest, e, rfl, rfl, by rw [eip1559.runTestCasesSequentially, h], hfatal.symm⟩

/-- C5. `runTestCasesSequentially` is fail-fast in list order.  If the cases of
`pre` pass and the next case `c` returns an error `e` in the state they left, the
run invokes exactly `pre` and then `c`, nothing of `rest`, and the fatal message
carries the name of `c` and `e`; every failing run is of that form; the run passes
if and only if every case of the list was invoked and returned nil; the names
invoked are always the first `k` names of the list, in order; and the runner of the
eip2930 module is the same function. -/
theorem runTestCasesSequentially_fail_fast {σ : Type} (testCases : List (TestCase σ)) (s : σ) :
    (∀ pre c rest e, testCases = pre ++ c :: rest →
      (eip1559.runTestCasesSequentially pre s).fatal = none →
      (c.validationFunction (eip1559.runTestCasesSequentially pre s).state).1 = some e →
      (eip1559.runTestCasesSequentially testCases s).invoked
          = pre.map (fun c => (c.name, none)) ++ [(c.name, some e)] ∧
        (eip1559.runTestCasesSequentially testCases s).fatal
          = some (c.name ++ " FAILED: " ++ e.msg)) ∧
    (∀ msg, (eip1559.runTestCasesSequentially testCases s).fatal = some msg →
      ∃ pre c rest e, testCases = pre ++ c :: rest ∧
        (eip1559.runTestCasesSequentially pre s).fatal = none ∧
        (c.validationFunction (eip1559.runTestCasesSequentially pre s).state).1 = some e ∧
        msg = c.name ++ " FAILED: " ++ e.msg ∧
        (eip1559.runTestCasesSequentially testCases s).invoked
          = pre.map (fun c => (c.name, none)) ++ [(c.name, some e)]) ∧
    ((eip1559.runTestCasesSequentially testCases s).fatal = none ↔
      (eip1559.runTestCasesSequentially testCases s).invoked
        = testCases.map (fun c => (c.name, none))) ∧
    (∃ k, k ≤ testCases.length ∧
      (eip1559.runTestCasesSequentially testCases s).invoked.map Prod.fst
        = (testCases.take k).map TestCase.name) ∧
    eip2930.runTestCasesSequentially testCases s
      = eip1559.runTestCasesSequentially testCases s := by
  have hA : ∀ pre c rest e, testCases = pre ++ c :: rest →
      (eip1559.runTestCasesSequentially pre s).fatal = none →
      (c.validationFunction (eip1559.runTestCasesSequentially pre s).state).1 = some e →
      (eip1559.runTestCasesSequentially testCases s).invoked
          = pre.map (fun c => (c.name, none)) ++ [(c.name, some e)] ∧
        (eip1559.runTestCasesSequentially testCases s).fatal
          = some (c.name ++ " FAILED: " ++ e.msg) := by
    intro pre c rest e hsplit hpre hc
    rw [hsplit, runTestCasesSequentially_append pre (c :: rest) s hpre]
    rcases h : c.validationFunction (eip1559.runTestCasesSequentially pre s).state with
      ⟨_ | e', s'⟩
    · rw [h] at hc
      cases hc
    · rw [h] at hc
      simp only [Option.some.injEq] at hc
      subst hc
      rw [runTestCasesSequentially_cons_fail c rest _ s' e' h]
      exact ⟨rfl, rfl⟩
  have hB : ∀ msg, (eip1559.runTestCasesSequentially testCases s).fatal = some msg →
      ∃ pre c rest e, testCases = pre ++ c :: rest ∧
        (eip1559.runTestCasesSequentially pre s).fatal = none ∧
        (c.validationFunction (eip1559.runTestCasesSequentially pre s).state).1 = some e ∧
        msg = c.name ++ " FAILED: " ++ e.msg ∧
        (eip1559.runTestCasesSequentially testCases s).invoked
          = pre.map (fun c => (c.name, none)) ++ [(c.name, some e)] := by
    intro msg hfatal
    obtain ⟨pre, c, rest, e, hsplit, hpre, hc, hmsg⟩ :=
      runTestCasesSequentially_fatal_split testCases s msg hfatal
    exact ⟨pre, c, rest, e, hsplit, hpre, hc, hmsg, (hA pre c rest e hsplit hpre hc).1⟩
  refine ⟨hA, hB, ⟨runTestCasesSequentially_pass_invoked testCases s, ?_⟩, ?_,
    runTestCasesSequentially_modules_agree testCases s⟩
  · intro hinv
    cases hf : (eip1559.runTestCasesSequentially testCases s).fatal with
    | none => rfl
    | some msg =>
      obtain ⟨pre, c, rest, e, _, _, _, _, hinv'⟩ := hB msg hf
      have hmem : (c.name, some e) ∈ (eip1559.runTestCasesSequentially testCases s).invoked := by
        rw [hinv']
        simp
      rw [hinv] at hmem
      simp at hmem
  · cases hf : (eip1559.runTestCasesSequentially testCases s).fatal with
    | none =>
      refine ⟨testCases.length, Nat.le_refl _, ?_⟩
      rw [runTestCasesSequentially_pass_invoked testCases s hf, List.take_length, List.map_map]
      rfl
    | some msg =>
      obtain ⟨pre, c, rest, e, hsplit, _, _, _, hinv⟩ := hB msg hf
      refine ⟨pre.length + 1, by rw [hsplit]; simp, ?_⟩
      have htake : (pre ++ c :: rest).take (pre.length + 1) = pre ++ [c] := by
        rw [show pre ++ c :: rest = (pre ++ [c]) ++ rest by simp]
        exact List.take_left' (by simp)
      rw [hinv, hsplit, htake]
      simp [Function.comp_def]

/-- C5 on three cases of which the second fails: the first two are invoked, the
third is not, and the message names the second. -/
theorem runTestCasesSequentially_fail_fast_witness :
    (eip1559.runTestCasesSequentially sampleTestCases 0).invoked
        = [("first", none), ("second", some (errorsNew "boom"))] ∧
      (eip1559.runTestCasesSequentially sampleTestCases 0).fatal
        = some ("second" ++ " FAILED: " ++ "boom") :=
  (runTestCasesSequentially_fail_fast sampleTestCases 0).1
    [{ name := "first", validationFunction := fun n => (none, n + 1) }]
    { name := "second", validationFunction := fun n => (some (errorsNew "boom"), n + 1) }
    [{ name := "third", validationFunction := fun n => (none, n + 1) }]
    (errorsNew "boom") rfl rfl rfl

/-! ## Theorems: the pre-Hertz gate -/

/-- C6. `preHertzTests` of the eip1559 module, on the answer to its height query:
a height at or above `PostHertzBlockNumber` ends the phase in `log.Fatalf` with no
test case invoked; a height below it hands over to `runPreHertzTests`, whose first
case is invoked; a failed query ends the phase in `log.Fatal` with that error and
no test case invoked. -/
theorem preHertzTests_gate (w : World) :
    (∀ h, w.client.BlockNumber 0 = .ok h → PostHertzBlockNumber ≤ h →
      (eip1559.preHertzTests w).invoked = [] ∧
      (eip1559.preHertzTests w).fatal =
        some ("Too late to run pre-Hertz tests since current block number "
          ++ toString h ++ " is after Hertz hard fork block "
          ++ toString PostHertzBlockNumber ++ ".\n")) ∧
    (∀ h, w.client.BlockNumber 0 = .ok h → h < PostHertzBlockNumber →
      eip1559.preHertzTests w = eip1559.runPreHertzTests w.tick ∧
      (eip1559.preHertzTests w).invoked.head?.map Prod.fst = some "testLegacyTxPreHertz") ∧
    (∀ e, w.client.BlockNumber 0 = .error e →
      (eip1559.preHertzTests w).invoked = [] ∧
      (eip1559.preHertzTests w).fatal = some e.msg) := by
  refine ⟨?_, ?_, ?_⟩
  · intro h hq hge
    unfold eip1559.preHertzTests
    rw [hq]
    simp only [ge_iff_le, hge, if_true, and_self]
  · intro h hq hlt
    have hrun : eip1559.preHertzTests w = eip1559.runPreHertzTests w.tick := by
      unfold eip1559.preHertzTests
      rw [hq]
      simp only [ge_iff_le, Nat.not_le.mpr hlt, if_false]
    refine ⟨hrun, ?_⟩
    rw [hrun]
    unfold eip1559.runPreHertzTests eip1559.preHertzTestCases
    rcases hv : onClient eip1559.testLegacyTxPreHertz w.tick with ⟨_ | e, s'⟩
    · rw [runTestCasesSequentially_cons_pass
        ⟨"testLegacyTxPreHertz", onClient eip1559.testLegacyTxPreHertz⟩ _ w.tick s' hv]
      rfl
    · rw [runTestCasesSequentially_cons_fail
        ⟨"testLegacyTxPreHertz", onClient eip1559.testLegacyTxPreHertz⟩ _ w.tick s' e hv]
      rfl
  · intro e hq
    unfold eip1559.preHertzTests
    rw [hq]
    exact ⟨rfl, rfl⟩

/-- C6 in a world at height 15: the phase is fatal and no test case is invoked. -/
theorem preHertzTests_gate_witness :
    lateWorld.client.BlockNumber 0 = .ok 15 ∧ PostHertzBlockNumber ≤ 15 ∧
    (eip1559.preHertzTests lateWorld).invoked = [] ∧
    (eip1559.preHertzTests lateWorld).fatal =
      some ("Too late to run pre-Hertz tests since current block number "
        ++ toString 15 ++ " is after Hertz hard fork block "
        ++ toString PostHertzBlockNumber ++ ".\n") :=
  ⟨rfl, by decide, (preHertzTests_gate lateWorld).1 15 rfl (by decide)⟩

/-! ## Theorems: rejection validators -/

/-- C7. On a network that accepts the submission (the send step returns a nil
error), `testDefaultDynamicFeeTxPreHertz` and `testSmallGasFeeCapDynamicFeeTxPreHertz`
return nil, that is success, while `testSmallGasTipCapDynamicFeeTxPreHertz` and
`runPreHertz2930Tests` return a failure. -/
theorem preHertz_validators_on_accepted_submission :
    (eip1559.sendDefaultDynamicTx acceptingClient false).2 = none ∧
    eip1559.testDefaultDynamicFeeTxPreHertz acceptingClient = none ∧
    (eip1559.sendSmallGasFeeCapDynamicFeeTx acceptingClient).2 = none ∧
    eip1559.testSmallGasFeeCapDynamicFeeTxPreHertz acceptingClient = none ∧
    (eip1559.sendSmallGasTipCapDynamicFeeTx acceptingClient).2 = none ∧
    eip1559.testSmallGasTipCapDynamicFeeTxPreHertz acceptingClient
      = some (errorsNew "error should not be nil") ∧
    (eip2930.sendAccessListTx acceptingClient).2 = none ∧
    eip2930.runPreHertz2930Tests acceptingClient
      = some (errorsNew "expected ErrTxTypeNotSupported but got \x60no error\x60 instead") := by
  refine ⟨rfl, rfl, rfl, rfl, rfl, rfl, rfl, rfl⟩

/-- C8. For each of the four pre-fork rejection validators and every non-nil error
`e` returned by its send step, whatever its origin: the validator returns success
if and only if the message of `e` is the message of `ErrTxTypeNotSupported`, and
otherwise it returns the failure whose text embeds the message of `e`.  The
message of `ErrTipAboveFeeCap` is such a different reason. -/
theorem preHertz_validators_compare_rejection_reason (client : Client) (e : Error) :
    ((eip1559.sendDefaultDynamicTx client false).2 = some e →
      (eip1559.testDefaultDynamicFeeTxPreHertz client = none ↔
        e.msg = ErrTxTypeNotSupported.msg) ∧
      (e.msg ≠ ErrTxTypeNotSupported.msg →
        eip1559.testDefaultDynamicFeeTxPreHertz client = some (errorsNew
          ("expected ErrTxTypeNotSupported but got \x27" ++ e.msg ++ "\x27 instead")))) ∧
    ((eip1559.sendSmallGasFeeCapDynamicFeeTx client).2 = some e →
      (eip1559.testSmallGasFeeCapDynamicFeeTxPreHertz client = none ↔
        e.msg = ErrTxTypeNotSupported.msg) ∧
      (e.msg ≠ ErrTxTypeNotSupported.msg →
        eip1559.testSmallGasFeeCapDynamicFeeTxPreHertz client = some (errorsNew
          ("expected ErrTxTypeNotSupported but got \x27" ++ e.msg ++ "\x27 instead")))) ∧
    ((eip1559.sendSmallGasTipCapDynamicFeeTx client).2 = some e →
      (eip1559.testSmallGasTipCapDynamicFeeTxPreHertz client = none ↔
        e.msg = ErrTxTypeNotSupported.msg) ∧
      (e.msg ≠ ErrTxTypeNotSupported.msg →
        eip1559.testSmallGasTipCapDynamicFeeTxPreHertz client = some (errorsNew
          ("expected ErrTxTypeNotSupported but got \x27" ++ e.msg ++ "\x27 instead")))) ∧
    ((eip2930.sendAccessListTx client).2 = some e →
      (eip2930.runPreHertz2930Tests client = none ↔ e.msg = ErrTxTypeNotSupported.msg) ∧
      (e.msg ≠ ErrTxTypeNotSupported.msg →
        eip2930.runPreHertz2930Tests client = some (errorsNew
          ("expected ErrTxTypeNotSupported but got \x27" ++ e.msg ++ "\x27 instead")))) ∧
    ErrTipAboveFeeCap.msg ≠ ErrTxTypeNotSupported.msg := by
  refine ⟨?_, ?_, ?_, ?_, by decide⟩
  · intro hsend
    unfold eip1559.testDefaultDynamicFeeTxPreHertz
    rw [hsend]
    by_cases hm : e.msg = ErrTxTypeNotSupported.msg <;>
      simp [hm, eip1559.expectedTxTypeNotSupported]
  · intro hsend
    unfold eip1559.testSmallGasFeeCapDynamicFeeTxPreHertz
    rw [hsend]
    by_cases hm : e.msg = ErrTxTypeNotSupported.msg <;>
      simp [hm, eip1559.expectedTxTypeNotSupported]
  · intro hsend
    unfold eip1559.testSmallGasTipCapDynamicFeeTxPreHertz
    rw [hsend]
    by_cases hm : e.msg = ErrTxTypeNotSupported.msg <;>
      simp [hm, eip1559.expectedTxTypeNotSupported]
  · intro hsend
    unfold eip2930.runPreHertz2930Tests
    rw [hsend]
    by_cases hm : e.msg = ErrTxTypeNotSupported.msg <;> simp [hm]

/-- C8 on a network that rejects the submission with the tip-above-fee-cap error:
`testDefaultDynamicFeeTxPreHertz` fails and reports that error. -/
theorem preHertz_validators_compare_rejection_reason_witness :
    (eip1559.sendDefaultDynamicTx (rejectingClient ErrTipAboveFeeCap) false).2
      = some ErrTipAboveFeeCap ∧
    eip1559.testDefaultDynamicFeeTxPreHertz (rejectingClient ErrTipAboveFeeCap)
      = some (errorsNew ("expected ErrTxTypeNotSupported but got \x27"
          ++ ErrTipAboveFeeCap.msg ++ "\x27 instead")) :=
  ⟨rfl,
    ((preHertz_validators_compare_rejection_reason (rejectingClient ErrTipAboveFeeCap)
      ErrTipAboveFeeCap).1 rfl).2 (by decide)⟩

/-- C9. `testSmallGasFeeCapDynamicFeeTxPostHertz` returns success if and only if
the send step returned a non-nil error whose message is the message of
`ErrTipAboveFeeCap`; it fails when the submission is accepted, and it fails,
reporting the observed error, when the rejection has any other message. -/
theorem testSmallGasFeeCapDynamicFeeTxPostHertz_iff (client : Client) :
    (eip1559.testSmallGasFeeCapDynamicFeeTxPostHertz client = none ↔
      ∃ e, (eip1559.sendSmallGasFeeCapDynamicFeeTx client).2 = some e ∧
        e.msg = ErrTipAboveFeeCap.msg) ∧
    ((eip1559.sendSmallGasFeeCapDynamicFeeTx client).2 = none →
      eip1559.testSmallGasFeeCapDynamicFeeTxPostHertz client
        = some (errorsNew "error should not be nil")) ∧
    (∀ e, (eip1559.sendSmallGasFeeCapDynamicFeeTx client).2 = some e →
      e.msg ≠ ErrTipAboveFeeCap.msg →
      eip1559.testSmallGasFeeCapDynamicFeeTxPostHertz client = some (errorsNew
        ("expected ErrTipAboveFeeCap but got \x27" ++ e.msg ++ "\x27 instead"))) := by
  unfold eip1559.testSmallGasFeeCapDynamicFeeTxPostHertz
  cases hsend : (eip1559.sendSmallGasFeeCapDynamicFeeTx client).2 with
  | none => simp
  | some e =>
    by_cases hm : e.msg = ErrTipAboveFeeCap.msg <;> simp [hm]

/-- C9 on a network that accepts the small-fee-cap transaction: the validator
fails. -/
theorem testSmallGasFeeCapDynamicFeeTxPostHertz_iff_witness :
    (eip1559.sendSmallGasFeeCapDynamicFeeTx acceptingClient).2 = none ∧
    eip1559.testSmallGasFeeCapDynamicFeeTxPostHertz acceptingClient
      = some (errorsNew "error should not be nil") :=
  ⟨rfl, (testSmallGasFeeCapDynamicFeeTxPostHertz_iff acceptingClient).2.1 rfl⟩

/-! ## Theorems: access-list gas -/

/-- C10. On a network where the submitted access-list transaction is mined with
status 1 and consumes exactly `TxGas + TxAccessListAddressGas +
TxAccessListStorageKeyGas = 25300` gas itself, but in a block that also includes a
21000-gas transfer, `testSendAccessListTx` fails: it compares the gas of the whole
block, 46300, with 25300. -/
theorem testSendAccessListTx_compares_block_gas :
    (eip2930.sendAccessListTx busyBlockClient) = (77, none) ∧
    (WaitForTransactionReceipt busyBlockClient 77).result = .ok ⟨1, 13, 25300⟩ ∧
    (25300 : Nat) = TxGas + 1 * TxAccessListAddressGas + 1 * TxAccessListStorageKeyGas ∧
    busyBlockClient.BlockByNumber 13 = .ok ⟨some 0, [21000, 25300]⟩ ∧
    Block.GasUsed ⟨some 0, [21000, 25300]⟩ = 46300 ∧
    eip2930.testSendAccessListTx busyBlockClient
      = some (errorsNew "incorrect amount of gas spent: expected 25300, got 46300") := by
  have hw : WaitForTransactionReceipt busyBlockClient 77 = ⟨.ok ⟨1, 13, 25300⟩, 1, 0⟩ :=
    WaitForTransactionReceiptLoop_found busyBlockClient 77 0 0 ⟨1, 13, 25300⟩ (by decide) rfl
  refine ⟨rfl, by rw [hw], by decide, rfl, by decide, ?_⟩
  have hsend : eip2930.sendAccessListTx busyBlockClient = (77, none) := rfl
  unfold eip2930.testSendAccessListTx
  rw [hsend]
  simp only [hw]
  rfl

/-! ## Theorems: post-Hertz validators -/

/-- The receipt wait on the post-fork sample network returns at the first poll. -/
theorem WaitForTransactionReceipt_postForkClient (txHash : Hash) :
    WaitForTransactionReceipt postForkClient txHash = ⟨.ok ⟨1, 13, 21000⟩, 1, 0⟩ :=
  WaitForTransactionReceiptLoop_found postForkClient txHash 0 0 ⟨1, 13, 21000⟩ (by decide) rfl

/-- C11. After a successful legacy submission, receipt wait and block lookup, with
`receipt` and `block` the observed receipt and including block:
`testLegacyTxPreHertz` returns success iff the status is 1 and the base fee is
absent; `testLegacyTxPostHertz` returns success iff the status is 1 and the base
fee is present and equal to 0; so no observation passes both. -/
theorem testLegacyTx_pre_and_post (client : Client) (txHash : Hash) (receipt : Receipt)
    (block : Block)
    (hsend : eip1559.sendLegacyTransaction client = (txHash, none))
    (hwait : (WaitForTransactionReceipt client txHash).result = .ok receipt)
    (hblock : client.BlockByNumber receipt.BlockNumber = .ok block) :
    (eip1559.testLegacyTxPreHertz client = none ↔
      receipt.Status = 1 ∧ block.BaseFee = none) ∧
    (eip1559.testLegacyTxPostHertz client = none ↔
      receipt.Status = 1 ∧ block.BaseFee = some 0) ∧
    ¬ (eip1559.testLegacyTxPreHertz client = none ∧
      eip1559.testLegacyTxPostHertz client = none) := by
  have hpre : eip1559.testLegacyTxPreHertz client = none ↔
      receipt.Status = 1 ∧ block.BaseFee = none := by
    unfold eip1559.testLegacyTxPreHertz
    rw [hsend]
    simp only [hwait]
    by_cases hs : receipt.Status = 1
    · simp only [hs, ne_eq, not_true_eq_false, if_false, hblock, true_and]
      cases hb : block.BaseFee <;> simp
    · simp [hs]
  have hpost : eip1559.testLegacyTxPostHertz client = none ↔
      receipt.Status = 1 ∧ block.BaseFee = some 0 := by
    unfold eip1559.testLegacyTxPostHertz
    rw [hsend]
    simp only [hwait]
    by_cases hs : receipt.Status = 1
    · simp only [hs, ne_eq, not_true_eq_false, if_false, hblock, true_and]
      cases hb : block.BaseFee with
      | none => simp
      | some fee =>
        by_cases hz : fee = 0 <;> simp [hz]
    · simp [hs]
  refine ⟨hpre, hpost, ?_⟩
  rintro ⟨h1, h2⟩
  have a := (hpre.mp h1).2
  have b := (hpost.mp h2).2
  rw [a] at b
  cases b

/-- C11 on the post-fork sample network: status 1 and base fee 0 pass the post-fork
validator and not the pre-fork one. -/
theorem testLegacyTx_pre_and_post_witness :
    eip1559.sendLegacyTransaction postForkClient = (77, none) ∧
    (WaitForTransactionReceipt postForkClient 77).result = .ok ⟨1, 13, 21000⟩ ∧
    postForkClient.BlockByNumber 13 = .ok ⟨some 0, [21000]⟩ ∧
    (eip1559.testLegacyTxPostHertz postForkClient = none ↔
      (1 : Nat) = 1 ∧ Block.BaseFee ⟨some 0, [21000]⟩ = some 0) ∧
    ¬ (eip1559.testLegacyTxPreHertz postForkClient = none ∧
      eip1559.testLegacyTxPostHertz postForkClient = none) :=
  ⟨rfl, by rw [WaitForTransactionReceipt_postForkClient], rfl,
    (testLegacyTx_pre_and_post postForkClient 77 ⟨1, 13, 21000⟩ ⟨some 0, [21000]⟩ rfl
      (by rw [WaitForTransactionReceipt_postForkClient]) rfl).2.1,
    (testLegacyTx_pre_and_post postForkClient 77 ⟨1, 13, 21000⟩ ⟨some 0, [21000]⟩ rfl
      (by rw [WaitForTransactionReceipt_postForkClient]) rfl).2.2⟩

/-- C12. `testDefaultDynamicFeeTxPostHertz` returns success only if the submission
and all chain queries succeeded, the receipt status is 1, the transaction looked
up by hash is not pending, its gas price, fee cap and tip cap are pairwise equal,
and the base fee of the including block is present and 0.  Conversely, when the
queries succeed and those conditions hold it returns success.  With status 1 and
a mined, non-pending transaction, any inequality among the three fee values gives
the failure that reports the three observed values. -/
theorem testDefaultDynamicFeeTxPostHertz_conditions (client : Client) :
    (eip1559.testDefaultDynamicFeeTxPostHertz client = none →
      ∃ txHash receipt tx block,
        eip1559.sendDefaultDynamicTx client true = (txHash, none) ∧
        (WaitForTransactionReceipt client txHash).result = .ok receipt ∧
        receipt.Status = 1 ∧
        client.TransactionByHash txHash = ⟨some tx, false, none⟩ ∧
        tx.GasPrice = tx.GasFeeCap ∧ tx.GasPrice = tx.GasTipCap ∧
        tx.GasTipCap = tx.GasFeeCap ∧
        client.BlockByNumber receipt.BlockNumber = .ok block ∧
        block.BaseFee = some 0) ∧
    (∀ txHash receipt tx block,
      eip1559.sendDefaultDynamicTx client true = (txHash, none) →
      (WaitForTransactionReceipt client txHash).result = .ok receipt →
      client.TransactionByHash txHash = ⟨some tx, false, none⟩ →
      client.BlockByNumber receipt.BlockNumber = .ok block →
      receipt.Status = 1 →
      tx.GasPrice = tx.GasFeeCap → tx.GasPrice = tx.GasTipCap →
      tx.GasTipCap = tx.GasFeeCap →
      block.BaseFee = some 0 →
      eip1559.testDefaultDynamicFeeTxPostHertz client = none) ∧
    (∀ txHash receipt tx,
      eip1559.sendDefaultDynamicTx client true = (txHash, none) →
      (WaitForTransactionReceipt client txHash).result = .ok receipt →
      receipt.Status = 1 →
      client.TransactionByHash txHash = ⟨some tx, false, none⟩ →
      (tx.GasPrice ≠ tx.GasFeeCap ∨ tx.GasPrice ≠ tx.GasTipCap ∨
        tx.GasTipCap ≠ tx.GasFeeCap) →
      eip1559.testDefaultDynamicFeeTxPostHertz client = some (errorsNew
        ("gasPrice, gasFeeCap and gasTip cap should all be equal when base fee is 0. gasPrice = "
          ++ toString tx.GasPrice ++ " , gasFeeCap = " ++ toString tx.GasFeeCap
          ++ ", gasTipCap =" ++ toString tx.GasTipCap))) := by
  refine ⟨?_, ?_, ?_⟩
  · intro hpass
    unfold eip1559.testDefaultDynamicFeeTxPostHertz at hpass
    rcases hsend : eip1559.sendDefaultDynamicTx client true with ⟨txHash, _ | e⟩
    swap
    · rw [hsend] at hpass
      cases hpass
    rw [hsend] at hpass
    simp only at hpass
    cases hwait : (WaitForTransactionReceipt client txHash).result with
    | error e =>
      rw [hwait] at hpass
      cases hpass
    | ok receipt =>
      rw [hwait] at hpass
      simp only at hpass
      by_cases hs : receipt.Status = 1
      swap
      · simp [hs] at hpass
      simp only [hs, ne_eq, not_true_eq_false, if_false] at hpass
      rcases hlookup : client.TransactionByHash txHash with ⟨tx?, pending, err?⟩
      rw [hlookup] at hpass
      cases pending with
      | true => simp at hpass
      | false =>
        simp only [Bool.false_eq_true, if_false] at hpass
        cases err? with
        | some e => cases hpass
        | none =>
          cases tx? with
          | none => cases hpass
          | some tx =>
            simp only at hpass
            by_cases hfees : tx.GasPrice ≠ tx.GasFeeCap ∨ tx.GasPrice ≠ tx.GasTipCap ∨
                tx.GasTipCap ≠ tx.GasFeeCap
            · simp [hfees] at hpass
            · simp only [hfees, if_false] at hpass
              simp only [ne_eq, not_or, not_not] at hfees
              cases hblock : client.BlockByNumber receipt.BlockNumber with
              | error e =>
                rw [hblock] at hpass
                cases hpass
              | ok block =>
                rw [hblock] at hpass
                simp only at hpass
                by_cases hbase : block.BaseFee = some 0
                · exact ⟨txHash, receipt, tx, block, rfl, hwait, hs, hlookup, hfees.1,
                    hfees.2.1, hfees.2.2, hblock, hbase⟩
                · exfalso
                  cases hb : block.BaseFee with
                  | none => simp [hb] at hpass
                  | some fee =>
                    rw [hb] at hbase hpass
                    simp [hbase] at hpass
  · intro txHash receipt tx block hsend hwait hlookup hblock hs h1 h2 h3 hbase
    unfold eip1559.testDefaultDynamicFeeTxPostHertz
    rw [hsend]
    simp only [hwait, hs, hlookup, hblock, hbase, h1, h2, h3]
    simp
  · intro txHash receipt tx hsend hwait hs hlookup hfees
    unfold eip1559.testDefaultDynamicFeeTxPostHertz
    rw [hsend]
    simp only [hwait, hs, hlookup]
    simp [hfees]

/-- C12 on the post-fork sample network, where the three fee values of the mined
transaction are equal and the base fee is 0: the validator passes. -/
theorem testDefaultDynamicFeeTxPostHertz_conditions_witness :
    eip1559.sendDefaultDynamicTx postForkClient true = (77, none) ∧
    (WaitForTransactionReceipt postForkClient 77).result = .ok ⟨1, 13, 21000⟩ ∧
    postForkClient.TransactionByHash 77
      = ⟨some ⟨1000010000, 1000010000, 1000010000⟩, false, none⟩ ∧
    postForkClient.BlockByNumber 13 = .ok ⟨some 0, [21000]⟩ ∧
    eip1559.testDefaultDynamicFeeTxPostHertz postForkClient = none :=
  ⟨rfl, by rw [WaitForTransactionReceipt_postForkClient], rfl, rfl,
    (testDefaultDynamicFeeTxPostHertz_conditions postForkClient).2.1 77 ⟨1, 13, 21000⟩
      ⟨1000010000, 1000010000, 1000010000⟩ ⟨some 0, [21000]⟩ rfl
      (by rw [WaitForTransactionReceipt_postForkClient]) rfl rfl rfl rfl rfl rfl rfl⟩

/-- C13. When the submission, the receipt wait and the transaction lookup succeed,
with `receipt` and `tx` the observed receipt and mined transaction and `pending`
the pending flag of the lookup: `testSmallGasTipCapDynamicFeeTxPostHertz` returns
success if and only if the status is 1, the transaction is not pending, the mined
tip cap is strictly below the mined fee cap and the mined gas price equals the fee
cap.  In particular a mined tip cap equal to the fee cap is a failure. -/
theorem testSmallGasTipCapDynamicFeeTxPostHertz_iff (client : Client) (txHash : Hash)
    (receipt : Receipt) (tx : MinedTx) (pending : Bool)
    (hsend : eip1559.sendSmallGasTipCapDynamicFeeTx client = (txHash, none))
    (hwait : (WaitForTransactionReceipt client txHash).result = .ok receipt)
    (hlookup : client.TransactionByHash txHash = ⟨some tx, pending, none⟩) :
    (eip1559.testSmallGasTipCapDynamicFeeTxPostHertz client = none ↔
      receipt.Status = 1 ∧ pending = false ∧ tx.GasTipCap < tx.GasFeeCap ∧
        tx.GasPrice = tx.GasFeeCap) ∧
    (tx.GasTipCap = tx.GasFeeCap →
      eip1559.testSmallGasTipCapDynamicFeeTxPostHertz client ≠ none) := by
  have hiff : eip1559.testSmallGasTipCapDynamicFeeTxPostHertz client = none ↔
      receipt.Status = 1 ∧ pending = false ∧ tx.GasTipCap < tx.GasFeeCap ∧
        tx.GasPrice = tx.GasFeeCap := by
    unfold eip1559.testSmallGasTipCapDynamicFeeTxPostHertz
    rw [hsend]
    simp only [hwait, hlookup]
    by_cases hs : receipt.Status = 1
    swap
    · simp [hs]
    simp only [hs, ne_eq, not_true_eq_false, if_false, true_and]
    cases pending with
    | true => simp
    | false =>
      simp only [Bool.false_eq_true, if_false, true_and]
      by_cases hlt : tx.GasTipCap < tx.GasFeeCap
      · have hnge : ¬ tx.GasTipCap ≥ tx.GasFeeCap := not_le.mpr hlt
        simp only [hnge, if_false, hlt, true_and]
        by_cases hp : tx.GasPrice = tx.GasFeeCap <;> simp [hp]
      · have hge : tx.GasTipCap ≥ tx.GasFeeCap := not_lt.mp hlt
        simp [hge, hlt]
  refine ⟨hiff, ?_⟩
  intro heq hpass
  have := (hiff.mp hpass).2.2.1
  rw [heq] at this
  exact lt_irrefl _ this

/-- C13 on the post-fork sample network, where the mined tip cap equals the fee
cap: the validator fails. -/
theorem testSmallGasTipCapDynamicFeeTxPostHertz_iff_witness :
    eip1559.sendSmallGasTipCapDynamicFeeTx postForkClient = (77, none) ∧
    (WaitForTransactionReceipt postForkClient 77).result = .ok ⟨1, 13, 21000⟩ ∧
    postForkClient.TransactionByHash 77
      = ⟨some ⟨1000010000, 1000010000, 1000010000⟩, false, none⟩ ∧
    eip1559.testSmallGasTipCapDynamicFeeTxPostHertz postForkClient ≠ none :=
  ⟨rfl, by rw [WaitForTransactionReceipt_postForkClient], rfl,
    (testSmallGasTipCapDynamicFeeTxPostHertz_iff postForkClient 77 ⟨1, 13, 21000⟩
      ⟨1000010000, 1000010000, 1000010000⟩ false rfl
      (by rw [WaitForTransactionReceipt_postForkClient]) rfl).2 rfl⟩

/-! ## Theorems: the fee values handed to sendDynamicFeeTx -/

/-- Half of an integer, rounded towards zero, is strictly below it exactly when the
integer is positive. -/
theorem tdiv_two_lt_iff (t : Int) : Int.tdiv t 2 < t ↔ 0 < t := by
  constructor
  · intro h
    by_contra hn
    have hle : t ≤ 0 := not_lt.mp hn
    obtain ⟨n, rfl⟩ : ∃ n : Int, t = -n := ⟨-t, by simp⟩
    rw [Int.neg_tdiv, Int.tdiv_eq_ediv (by omega) (by decide)] at h
    omega
  · intro h
    rw [Int.tdiv_eq_ediv (by omega) (by decide)]
    omega

/-- With a positive suggested tip cap the small-fee-cap sender hands half of it and
the tip cap itself to `sendDynamicFeeTx`. -/
theorem sendSmallGasFeeCapDynamicFeeTx_pos (client : Client) (t : Int)
    (ht : client.SuggestGasTipCap = .ok t) (hpos : 0 < t) :
    eip1559.sendSmallGasFeeCapDynamicFeeTx client
      = eip1559.sendDynamicFeeTx client (Int.tdiv t 2) t := by
  unfold eip1559.sendSmallGasFeeCapDynamicFeeTx
  rw [ht]
  have h : ¬ Int.tdiv t 2 ≥ t := not_le.mpr ((tdiv_two_lt_iff t).mpr hpos)
  simp only [h, if_false]

/-- With a suggested tip cap that is not positive the small-fee-cap sender returns
its own error. -/
theorem sendSmallGasFeeCapDynamicFeeTx_nonpos (client : Client) (t : Int)
    (ht : client.SuggestGasTipCap = .ok t) (hle : t ≤ 0) :
    eip1559.sendSmallGasFeeCapDynamicFeeTx client
      = (0, some (errorsNew
          "gasPrice was expected to be less than gasTipCap in this test case")) := by
  unfold eip1559.sendSmallGasFeeCapDynamicFeeTx
  rw [ht]
  have h : Int.tdiv t 2 ≥ t := by
    by_contra hn
    have := (tdiv_two_lt_iff t).mp (not_le.mp hn)
    omega
  simp only [h, if_true]

/-- With a positive suggested gas price the small-tip-cap sender hands the price
and half of it to `sendDynamicFeeTx`. -/
theorem sendSmallGasTipCapDynamicFeeTx_pos (client : Client) (p : Int)
    (hp : client.SuggestGasPrice = .ok p) (hpos : 0 < p) :
    eip1559.sendSmallGasTipCapDynamicFeeTx client
      = eip1559.sendDynamicFeeTx client p (Int.tdiv p 2) := by
  unfold eip1559.sendSmallGasTipCapDynamicFeeTx
  rw [hp]
  have h : ¬ Int.tdiv p 2 ≥ p := not_le.mpr ((tdiv_two_lt_iff p).mpr hpos)
  simp only [h, if_false]

/-- With a suggested gas price that is not positive the small-tip-cap sender
returns its own error. -/
theorem sendSmallGasTipCapDynamicFeeTx_nonpos (client : Client) (p : Int)
    (hp : client.SuggestGasPrice = .ok p) (hle : p ≤ 0) :
    eip1559.sendSmallGasTipCapDynamicFeeTx client
      = (0, some (errorsNew
          "gasTipCap was expected to be less than gasPrice in this test case")) := by
  unfold eip1559.sendSmallGasTipCapDynamicFeeTx
  rw [hp]
  have h : Int.tdiv p 2 ≥ p := by
    by_contra hn
    have := (tdiv_two_lt_iff p).mp (not_le.mp hn)
    omega
  simp only [h, if_true]

/-- Every error of `sendDynamicFeeTx` is the error of its nonce query, of the
signing of the transaction it built, or of the submission of the signed
transaction. -/
theorem sendDynamicFeeTx_error_origin (client : Client) (gasFeeCap gasTipCap : Int)
    (e : Error) (h : (eip1559.sendDynamicFeeTx client gasFeeCap gasTipCap).2 = some e) :
    client.PendingNonceAt senderAddress = .error e ∨
    ∃ nonce, client.PendingNonceAt senderAddress = .ok nonce ∧
      (client.SignTx (TxData.DynamicFeeTx ChainId nonce receiverAddress 1000000000000000000
          21000 gasFeeCap gasTipCap [] []) (.London ChainId) = .error e ∨
        ∃ signedTx, client.SignTx (TxData.DynamicFeeTx ChainId nonce receiverAddress
            1000000000000000000 21000 gasFeeCap gasTipCap [] []) (.London ChainId)
              = .ok signedTx ∧
          client.SendTransaction signedTx = some e) := by
  unfold eip1559.sendDynamicFeeTx at h
  cases hn : client.PendingNonceAt senderAddress with
  | error e' =>
    rw [hn] at h
    simp only [Option.some.injEq] at h
    left
    rw [h]
  | ok nonce =>
    rw [hn] at h
    right
    refine ⟨nonce, rfl, ?_⟩
    cases hsig : client.SignTx (TxData.DynamicFeeTx ChainId nonce receiverAddress
        1000000000000000000 21000 gasFeeCap gasTipCap [] []) (.London ChainId) with
    | error e' =>
      simp only [hsig, Option.some.injEq] at h
      left
      rw [h]
    | ok signedTx =>
      simp only [hsig] at h
      right
      refine ⟨signedTx, rfl, ?_⟩
      cases hsub : client.SendTransaction signedTx with
      | none => simp [hsub] at h
      | some e' =>
        simp only [hsub, Option.some.injEq] at h
        rw [h]

/-- C14, as stated, fails: on a network that suggests 0 and on which no call and no
signing ever fails, both small-fee senders return an error of their own, made by
their check on the fee values, and do not go on to `sendDynamicFeeTx`. -/
theorem small_fee_senders_reject_zero_locally :
    zeroSuggestionClient.SuggestGasTipCap = .ok 0 ∧
    zeroSuggestionClient.SuggestGasPrice = .ok 0 ∧
    (∀ a, zeroSuggestionClient.PendingNonceAt a = .ok 0) ∧
    (∀ tx signer, zeroSuggestionClient.SignTx tx signer = .ok ⟨tx, 77⟩) ∧
    (∀ signedTx, zeroSuggestionClient.SendTransaction signedTx = none) ∧
    eip1559.sendSmallGasFeeCapDynamicFeeTx zeroSuggestionClient
      = (0, some (errorsNew
          "gasPrice was expected to be less than gasTipCap in this test case")) ∧
    eip1559.sendSmallGasTipCapDynamicFeeTx zeroSuggestionClient
      = (0, some (errorsNew
          "gasTipCap was expected to be less than gasPrice in this test case")) ∧
    eip1559.sendSmallGasFeeCapDynamicFeeTx zeroSuggestionClient
      ≠ eip1559.sendDynamicFeeTx zeroSuggestionClient (Int.tdiv 0 2) 0 ∧
    eip1559.sendSmallGasTipCapDynamicFeeTx zeroSuggestionClient
      ≠ eip1559.sendDynamicFeeTx zeroSuggestionClient 0 (Int.tdiv 0 2) := by
  refine ⟨rfl, rfl, fun _ => rfl, fun _ _ => rfl, fun _ => rfl, rfl, rfl, ?_, ?_⟩ <;> decide

/-- C14, amended.  For a positive suggested tip cap (resp. gas price) the
small-fee-cap (resp. small-tip-cap) sender goes on to `sendDynamicFeeTx` with the
halved value, without any rejection of the fee values, and every error
`sendDynamicFeeTx` returns is the error of the nonce query, of signing or of the
submission.  A failed suggestion query is returned as it is.  For a suggested
value that is not positive, 0 included, the sender returns the error of its own
check and nothing is built or submitted. -/
theorem small_fee_senders_error_origin (client : Client) :
    (∀ t, client.SuggestGasTipCap = .ok t → 0 < t →
      eip1559.sendSmallGasFeeCapDynamicFeeTx client
        = eip1559.sendDynamicFeeTx client (Int.tdiv t 2) t) ∧
    (∀ p, client.SuggestGasPrice = .ok p → 0 < p →
      eip1559.sendSmallGasTipCapDynamicFeeTx client
        = eip1559.sendDynamicFeeTx client p (Int.tdiv p 2)) ∧
    (∀ gasFeeCap gasTipCap e,
      (eip1559.sendDynamicFeeTx client gasFeeCap gasTipCap).2 = some e →
      client.PendingNonceAt senderAddress = .error e ∨
      ∃ nonce, client.PendingNonceAt senderAddress = .ok nonce ∧
        (client.SignTx (TxData.DynamicFeeTx ChainId nonce receiverAddress
            1000000000000000000 21000 gasFeeCap gasTipCap [] []) (.London ChainId)
              = .error e ∨
          ∃ signedTx, client.SignTx (TxData.DynamicFeeTx ChainId nonce receiverAddress
              1000000000000000000 21000 gasFeeCap gasTipCap [] []) (.London ChainId)
                = .ok signedTx ∧
            client.SendTransaction signedTx = some e)) ∧
    (∀ e, client.SuggestGasTipCap = .error e →
      eip1559.sendSmallGasFeeCapDynamicFeeTx client = (0, some e)) ∧
    (∀ e, client.SuggestGasPrice = .error e →
      eip1559.sendSmallGasTipCapDynamicFeeTx client = (0, some e)) ∧
    (∀ t, client.SuggestGasTipCap = .ok t → t ≤ 0 →
      eip1559.sendSmallGasFeeCapDynamicFeeTx client
        = (0, some (errorsNew
            "gasPrice was expected to be less than gasTipCap in this test case"))) ∧
    (∀ p, client.SuggestGasPrice = .ok p → p ≤ 0 →
      eip1559.sendSmallGasTipCapDynamicFeeTx client
        = (0, some (errorsNew
            "gasTipCap was expected to be less than gasPrice in this test case"))) := by
  refine ⟨sendSmallGasFeeCapDynamicFeeTx_pos client, sendSmallGasTipCapDynamicFeeTx_pos client,
    sendDynamicFeeTx_error_origin client, ?_, ?_,
    sendSmallGasFeeCapDynamicFeeTx_nonpos client, sendSmallGasTipCapDynamicFeeTx_nonpos client⟩
  · intro e he
    unfold eip1559.sendSmallGasFeeCapDynamicFeeTx
    rw [he]
  · intro e he
    unfold eip1559.sendSmallGasTipCapDynamicFeeTx
    rw [he]

/-- C14, amended, on the idle network, which suggests a tip cap of 1000000000: the
small-fee-cap sender goes on to `sendDynamicFeeTx`. -/
theorem small_fee_senders_error_origin_witness :
    idleClient.SuggestGasTipCap = .ok 1000000000 ∧ (0 : Int) < 1000000000 ∧
    eip1559.sendSmallGasFeeCapDynamicFeeTx idleClient
      = eip1559.sendDynamicFeeTx idleClient (Int.tdiv 1000000000 2) 1000000000 :=
  ⟨rfl, by decide, (small_fee_senders_error_origin idleClient).1 1000000000 rfl (by decide)⟩

/-- C15, as stated, fails: with suggested gas price 5 and suggested tip cap 3 the
transaction built by `sendDefaultDynamicTx(true)` has fee cap 10005 and tip cap
10003, not 10005. -/
theorem sendDefaultDynamicTx_tip_cap_is_not_price :
    feeEchoClient.SuggestGasPrice = .ok 5 ∧
    feeEchoClient.SuggestGasTipCap = .ok 3 ∧
    eip1559.sendDefaultDynamicTx feeEchoClient true
      = (77, some (errorsNew "feeCap=10005 tipCap=10003")) ∧
    eip1559.sendDynamicFeeTx feeEchoClient (5 + 10000) (5 + 10000)
      = (77, some (errorsNew "feeCap=10005 tipCap=10005")) ∧
    eip1559.sendDefaultDynamicTx feeEchoClient true
      ≠ eip1559.sendDynamicFeeTx feeEchoClient (5 + 10000) (5 + 10000) := by
  refine ⟨rfl, rfl, ?_, ?_, ?_⟩ <;> decide

/-- C15, amended.  With overPrice set, `sendDefaultDynamicTx` hands to
`sendDynamicFeeTx` the suggested gas price plus 10000 as fee cap and the suggested
tip cap plus 10000 as tip cap; the transaction given to the signer carries exactly
these two values; and the two are equal exactly when the suggested tip cap equals
the suggested gas price. -/
theorem sendDefaultDynamicTx_overpriced_fees (client : Client) (p t : Int)
    (hp : client.SuggestGasPrice = .ok p) (ht : client.SuggestGasTipCap = .ok t) :
    eip1559.sendDefaultDynamicTx client true
      = eip1559.sendDynamicFeeTx client (p + 10000) (t + 10000) ∧
    (∀ nonce, client.PendingNonceAt senderAddress = .ok nonce →
      eip1559.sendDefaultDynamicTx client true =
        match client.SignTx (TxData.DynamicFeeTx ChainId nonce receiverAddress
            1000000000000000000 21000 (p + 10000) (t + 10000) [] []) (.London ChainId) with
        | .error err => (0, some err)
        | .ok signedTx => (signedTx.hash, client.SendTransaction signedTx)) ∧
    (p + 10000 = t + 10000 ↔ t = p) := by
  have hcall : eip1559.sendDefaultDynamicTx client true
      = eip1559.sendDynamicFeeTx client (p + 10000) (t + 10000) := by
    unfold eip1559.sendDefaultDynamicTx
    rw [hp, ht]
    simp
  refine ⟨hcall, ?_, by omega⟩
  intro nonce hn
  rw [hcall]
  unfold eip1559.sendDynamicFeeTx
  rw [hn]
  simp only
  cases client.SignTx (TxData.DynamicFeeTx ChainId nonce receiverAddress
      1000000000000000000 21000 (p + 10000) (t + 10000) [] []) (.London ChainId) with
  | error e => rfl
  | ok signedTx =>
    simp only
    cases client.SendTransaction signedTx <;> rfl

/-- C15, amended, on the network that suggests price 5 and tip cap 3. -/
theorem sendDefaultDynamicTx_overpriced_fees_witness :
    feeEchoClient.SuggestGasPrice = .ok 5 ∧ feeEchoClient.SuggestGasTipCap = .ok 3 ∧
    eip1559.sendDefaultDynamicTx feeEchoClient true
      = eip1559.sendDynamicFeeTx feeEchoClient (5 + 10000) (3 + 10000) :=
  ⟨rfl, rfl, (sendDefaultDynamicTx_overpriced_fees feeEchoClient 5 3 rfl rfl).1⟩

/-- C17. For a suggested tip cap `t ≥ 1` the small-fee-cap sender hands to
`sendDynamicFeeTx` the fee cap `Quo(t, 2)`, which is the integer half `⌊t/2⌋`
(`2 * h ≤ t < 2 * h + 2`) and strictly below `t`, and the tip cap `t`; for a
suggested gas price `p ≥ 1` the small-tip-cap sender hands the fee cap `p` and
the tip cap `Quo(p, 2) = ⌊p/2⌋`, strictly below `p`.  At 0 the halved value is 0
again and the strict ordering fails. -/
theorem small_fee_senders_halve (client : Client) :
    (∀ t, client.SuggestGasTipCap = .ok t → 1 ≤ t →
      eip1559.sendSmallGasFeeCapDynamicFeeTx client
        = eip1559.sendDynamicFeeTx client (Int.tdiv t 2) t ∧
      Int.tdiv t 2 = t / 2 ∧ 2 * Int.tdiv t 2 ≤ t ∧ t < 2 * Int.tdiv t 2 + 2 ∧
      Int.tdiv t 2 < t) ∧
    (∀ p, client.SuggestGasPrice = .ok p → 1 ≤ p →
      eip1559.sendSmallGasTipCapDynamicFeeTx client
        = eip1559.sendDynamicFeeTx client p (Int.tdiv p 2) ∧
      Int.tdiv p 2 = p / 2 ∧ 2 * Int.tdiv p 2 ≤ p ∧ p < 2 * Int.tdiv p 2 + 2 ∧
      Int.tdiv p 2 < p) ∧
    (Int.tdiv 0 2 = 0 ∧ ¬ Int.tdiv 0 2 < 0) := by
  have hhalf : ∀ t : Int, 1 ≤ t →
      Int.tdiv t 2 = t / 2 ∧ 2 * Int.tdiv t 2 ≤ t ∧ t < 2 * Int.tdiv t 2 + 2 ∧
        Int.tdiv t 2 < t := by
    intro t ht
    rw [Int.tdiv_eq_ediv (by omega) (by decide)]
    refine ⟨rfl, ?_, ?_, ?_⟩ <;> omega
  refine ⟨?_, ?_, by decide⟩
  · intro t ht hpos
    exact ⟨sendSmallGasFeeCapDynamicFeeTx_pos client t ht (by omega), hhalf t hpos⟩
  · intro p hp hpos
    exact ⟨sendSmallGasTipCapDynamicFeeTx_pos client p hp (by omega), hhalf p hpos⟩

/-- C17 on the idle network, which suggests a gas price of 1000000000: the tip cap
handed on is 500000000. -/
theorem small_fee_senders_halve_witness :
    idleClient.SuggestGasPrice = .ok 1000000000 ∧ (1 : Int) ≤ 1000000000 ∧
    eip1559.sendSmallGasTipCapDynamicFeeTx idleClient
      = eip1559.sendDynamicFeeTx idleClient 1000000000 (Int.tdiv 1000000000 2) ∧
    Int.tdiv 1000000000 2 < (1000000000 : Int) :=
  ⟨rfl, by decide,
    ((small_fee_senders_halve idleClient).2.1 1000000000 rfl (by decide)).1,
    ((small_fee_senders_halve idleClient).2.1 1000000000 rfl (by decide)).2.2.2.2⟩

/-! ## Theorems: main -/

/-- An interleaving contains the events of its two goroutines and no other. -/
theorem mem_interleave (x : Event) :
    ∀ (schedule : List Bool) (a b : List Event),
      x ∈ interleave schedule a b ↔ x ∈ a ∨ x ∈ b := by
  intro schedule
  induction schedule with
  | nil => intro a b; simp [interleave]
  | cons turn schedule ih =>
    intro a b
    cases turn with
    | true =>
      cases a with
      | nil => simp [interleave]
      | cons e a => simp [interleave, ih, or_assoc]
    | false =>
      cases b with
      | nil => simp [interleave]
      | cons e b =>
        simp only [interleave, List.mem_cons, ih]
        tauto

/-- An interleaving has as many `wg.Done()` as its two goroutines together. -/
theorem count_done_interleave :
    ∀ (schedule : List Bool) (a b : List Event),
      (interleave schedule a b).count Event.done
        = a.count Event.done + b.count Event.done := by
  intro schedule
  induction schedule with
  | nil => intro a b; simp [interleave]
  | cons turn schedule ih =>
    intro a b
    cases turn with
    | true =>
      cases a with
      | nil => simp [interleave]
      | cons e a =>
        simp only [interleave, List.count_cons, ih]
        omega
    | false =>
      cases b with
      | nil => simp [interleave]
      | cons e b =>
        simp only [interleave, List.count_cons, ih]
        omega

/-- The success line reaches standard output only after as many `wg.Done()` as
there were goroutines pending. -/
theorem mainWait_success_needs_done :
    ∀ (events : List Event) (pending : Nat) (out : List String),
      1 ≤ pending → "ALL TESTS PASSED!" ∉ out →
      (∀ line, Event.print line ∈ events → line ≠ "ALL TESTS PASSED!") →
      "ALL TESTS PASSED!" ∈ (mainWait events pending out).stdout →
      pending ≤ events.count Event.done := by
  intro events
  induction events with
  | nil =>
    intro pending out _ hout _ hmem
    exact absurd hmem hout
  | cons e events ih =>
    intro pending out hp hout hprint hmem
    cases e with
    | print line =>
      rw [mainWait] at hmem
      have hline : line ≠ "ALL TESTS PASSED!" := hprint line (by simp)
      have hout' : "ALL TESTS PASSED!" ∉ out ++ [line] := by
        simp only [List.mem_append, List.mem_singleton, not_or]
        exact ⟨hout, fun h => hline h.symm⟩
      have := ih pending (out ++ [line]) hp hout'
        (fun l hl => hprint l (List.mem_cons_of_mem _ hl)) hmem
      simpa [List.count_cons] using this
    | fatal msg =>
      rw [mainWait] at hmem
      exact absurd hmem hout
    | done =>
      rw [mainWait] at hmem
      by_cases hz : pending - 1 = 0
      · simp only [List.count_cons, beq_self_eq_true, if_true]
        omega
      · simp only [hz, if_false] at hmem
        have := ih (pending - 1) out (by omega) hout
          (fun l hl => hprint l (List.mem_cons_of_mem _ hl)) hmem
        simp only [List.count_cons, beq_self_eq_true, if_true]
        omega

/-- Without a `log.Fatal`, enough `wg.Done()` let `main` print the success line
and exit with status 0. -/
theorem mainWait_success_of_done :
    ∀ (events : List Event) (pending : Nat) (out : List String),
      1 ≤ pending → (∀ msg, Event.fatal msg ∉ events) →
      pending ≤ events.count Event.done →
      "ALL TESTS PASSED!" ∈ (mainWait events pending out).stdout ∧
        (mainWait events pending out).exit = some 0 := by
  intro events
  induction events with
  | nil =>
    intro pending out hp _ hcount
    simp at hcount
    omega
  | cons e events ih =>
    intro pending out hp hfatal hcount
    cases e with
    | print line =>
      rw [mainWait]
      apply ih pending (out ++ [line]) hp
        (fun msg hm => hfatal msg (List.mem_cons_of_mem _ hm))
      simpa [List.count_cons] using hcount
    | fatal msg =>
      exact absurd (List.mem_cons_self _ _) (hfatal msg)
    | done =>
      rw [mainWait]
      by_cases hz : pending - 1 = 0
      · simp [hz]
      · simp only [hz, if_false]
        apply ih (pending - 1) out (by omega)
          (fun msg hm => hfatal msg (List.mem_cons_of_mem _ hm))
        simp only [List.count_cons, beq_self_eq_true, if_true] at hcount
        omega

/-- On the pre-fork sample world the whole pre-Hertz phase of eip1559 passes. -/
theorem preHertzTests_preForkWorld :
    (eip1559.preHertzTests preForkWorld).fatal = none ∧
    (eip1559.preHertzTests preForkWorld).invoked
      = eip1559.preHertzTestCases.map (fun c => (c.name, none)) := by
  have hw : ∀ h, WaitForTransactionReceipt preForkClient h = ⟨.ok ⟨1, 1, 21000⟩, 1, 0⟩ :=
    fun h => WaitForTransactionReceiptLoop_found preForkClient h 0 0 ⟨1, 1, 21000⟩
      (by decide) rfl
  have h1 : eip1559.testLegacyTxPreHertz preForkClient = none := by
    unfold eip1559.testLegacyTxPreHertz
    rw [show eip1559.sendLegacyTransaction preForkClient = (77, none) from rfl]
    simp only [hw]
    rfl
  have h2 : eip1559.testDefaultDynamicFeeTxPreHertz preForkClient = none := rfl
  have h3 : eip1559.testSmallGasFeeCapDynamicFeeTxPreHertz preForkClient = none := rfl
  have h4 : eip1559.testSmallGasTipCapDynamicFeeTxPreHertz preForkClient = none := rfl
  have h5 : eip1559.testSuggestedPricesPreHertz preForkClient = none := rfl
  have hb : preForkClient.BlockNumber 0 = .ok 1 := rfl
  have hlt : ¬ (1 ≥ PostHertzBlockNumber) := by decide
  simp [eip1559.preHertzTests, eip1559.runPreHertzTests, eip1559.preHertzTestCases,
    eip1559.runTestCasesSequentially, onClient, World.client, World.tick, preForkWorld,
    h1, h2, h3, h4, h5, hb, hlt]

/-- On the post-fork sample world the whole post-Hertz phase of eip1559 passes. -/
theorem postHertzTests_postForkWorld :
    ∃ r, eip1559.postHertzTests postForkWorld 5 = some r ∧ r.fatal = none ∧
      r.invoked = eip1559.postHertzTestCases.map (fun c => (c.name, none)) := by
  have hw : ∀ h, WaitForTransactionReceipt postForkClient h = ⟨.ok ⟨1, 13, 21000⟩, 1, 0⟩ :=
    WaitForTransactionReceipt_postForkClient
  have hw3 : ∀ h, WaitForTransactionReceipt smallTipMinedClient h
      = ⟨.ok ⟨1, 13, 21000⟩, 1, 0⟩ :=
    fun h => WaitForTransactionReceiptLoop_found smallTipMinedClient h 0 0 ⟨1, 13, 21000⟩
      (by decide) rfl
  have h1 : eip1559.testLegacyTxPostHertz postForkClient = none := by
    unfold eip1559.testLegacyTxPostHertz
    rw [show eip1559.sendLegacyTransaction postForkClient = (77, none) from rfl]
    simp only [hw]
    rfl
  have h2 : eip1559.testDefaultDynamicFeeTxPostHertz postForkClient = none := by
    unfold eip1559.testDefaultDynamicFeeTxPostHertz
    rw [show eip1559.sendDefaultDynamicTx postForkClient true = (77, none) from rfl]
    simp only [hw]
    rfl
  have h3 : eip1559.testSmallGasTipCapDynamicFeeTxPostHertz smallTipMinedClient = none := by
    unfold eip1559.testSmallGasTipCapDynamicFeeTxPostHertz
    rw [show eip1559.sendSmallGasTipCapDynamicFeeTx smallTipMinedClient = (77, none) from rfl]
    simp only [hw3]
    rfl
  have h4 : eip1559.testSmallGasFeeCapDynamicFeeTxPostHertz (rejectingClient ErrTipAboveFeeCap)
      = none := rfl
  have h5 : eip1559.testSuggestedPricesPostHertz postForkClient = none := rfl
  have hgate : WaitForBlockNumber (postForkWorld.chain 0) PostHertzBlockNumber 5
      = some ⟨none, 1, 0⟩ := rfl
  refine ⟨eip1559.runPostHertzTests postForkWorld.tick, ?_, ?_, ?_⟩
  · unfold eip1559.postHertzTests
    rw [show postForkWorld.client = postForkWorld.chain 0 from rfl, hgate]
  · simp [eip1559.runPostHertzTests, eip1559.postHertzTestCases,
      eip1559.runTestCasesSequentially, onClient, World.client, World.tick, postForkWorld,
      h1, h2, h3, h4, h5]
  · simp [eip1559.runPostHertzTests, eip1559.postHertzTestCases,
      eip1559.runTestCasesSequentially, onClient, World.client, World.tick, postForkWorld,
      h1, h2, h3, h4, h5]

/-- A pre-Hertz phase of eip1559 that does not end in `log.Fatal` invoked all its
test cases and each returned nil. -/
theorem preHertzTests_pass_invoked (w : World)
    (h : (eip1559.preHertzTests w).fatal = none) :
    (eip1559.preHertzTests w).invoked
      = eip1559.preHertzTestCases.map (fun c => (c.name, none)) := by
  unfold eip1559.preHertzTests at h ⊢
  cases hq : w.client.BlockNumber 0 with
  | error e =>
    rw [hq] at h
    cases h
  | ok blockNr =>
    rw [hq] at h
    by_cases hge : blockNr ≥ PostHertzBlockNumber
    · simp [hge] at h
    · simp only [hge, if_false] at h ⊢
      exact runTestCasesSequentially_pass_invoked eip1559.preHertzTestCases w.tick h

/-- A post-Hertz phase of eip1559 that returned without `log.Fatal` invoked all its
test cases and each returned nil. -/
theorem postHertzTests_pass_invoked (w : World) (fuel : Nat) (r : RunResult World)
    (hr : eip1559.postHertzTests w fuel = some r) (h : r.fatal = none) :
    r.invoked = eip1559.postHertzTestCases.map (fun c => (c.name, none)) := by
  unfold eip1559.postHertzTests at hr
  cases hwait : WaitForBlockNumber w.client PostHertzBlockNumber fuel with
  | none =>
    rw [hwait] at hr
    cases hr
  | some waited =>
    rw [hwait] at hr
    cases herr : waited.err with
    | some e =>
      simp only [herr, Option.some.injEq] at hr
      rw [← hr] at h
      cases h
    | none =>
      simp only [herr, Option.some.injEq] at hr
      rw [← hr] at h ⊢
      exact runTestCasesSequentially_pass_invoked eip1559.postHertzTestCases w.tick h

/-- The goroutine of the pre-Hertz phase ends in `wg.Done()` or in `log.Fatal`. -/
theorem preHertzEvents_cases (w : World) :
    ((eip1559.preHertzTests w).fatal = none ∧ eip1559.preHertzEvents w = [.done]) ∨
    (∃ msg, (eip1559.preHertzTests w).fatal = some msg ∧
      eip1559.preHertzEvents w = [.fatal msg]) := by
  unfold eip1559.preHertzEvents
  cases h : (eip1559.preHertzTests w).fatal with
  | none => exact Or.inl ⟨rfl, rfl⟩
  | some msg => exact Or.inr ⟨msg, rfl, rfl⟩

/-- The goroutine of the post-Hertz phase is still waiting, or ends in `log.Fatal`,
or prints `Tests passed!` and ends in `wg.Done()`. -/
theorem postHertzEvents_cases (w : World) (fuel : Nat) :
    (eip1559.postHertzTests w fuel = none ∧ eip1559.postHertzEvents w fuel = []) ∨
    (∃ r msg, eip1559.postHertzTests w fuel = some r ∧ r.fatal = some msg ∧
      eip1559.postHertzEvents w fuel = [.fatal msg]) ∨
    (∃ r, eip1559.postHertzTests w fuel = some r ∧ r.fatal = none ∧
      eip1559.postHertzEvents w fuel = [.print "Tests passed!", .done]) := by
  unfold eip1559.postHertzEvents
  cases h : eip1559.postHertzTests w fuel with
  | none => exact Or.inl ⟨rfl, rfl⟩
  | some r =>
    cases hf : r.fatal with
    | none => exact Or.inr (Or.inr ⟨r, rfl, hf, by simp [hf]⟩)
    | some msg => exact Or.inr (Or.inl ⟨r, msg, rfl, hf, by simp [hf]⟩)

/-- C16. In every order of the events of the two goroutines, `main` of eip1559
prints `ALL TESTS PASSED!` only if the pre-Hertz phase returned with every one of
its test cases invoked and passing and the post-Hertz phase returned with every
one of its test cases invoked and passing.  If either phase ends in `log.Fatal`
(a failing case or a fatal error), or the post-Hertz phase is still waiting, the
line is not printed.  When both phases pass it is printed and the process exits
with status 0. -/
theorem main_success_only_if_both_phases_pass (wPre wPost : World) (fuel : Nat)
    (schedule : List Bool) :
    ("ALL TESTS PASSED!" ∈ (eip1559.main wPre wPost fuel schedule).stdout →
      (eip1559.preHertzTests wPre).fatal = none ∧
      (eip1559.preHertzTests wPre).invoked
        = eip1559.preHertzTestCases.map (fun c => (c.name, none)) ∧
      ∃ r, eip1559.postHertzTests wPost fuel = some r ∧ r.fatal = none ∧
        r.invoked = eip1559.postHertzTestCases.map (fun c => (c.name, none))) ∧
    ((eip1559.preHertzTests wPre).fatal ≠ none →
      "ALL TESTS PASSED!" ∉ (eip1559.main wPre wPost fuel schedule).stdout) ∧
    (∀ r, eip1559.postHertzTests wPost fuel = some r → r.fatal ≠ none →
      "ALL TESTS PASSED!" ∉ (eip1559.main wPre wPost fuel schedule).stdout) ∧
    (eip1559.postHertzTests wPost fuel = none →
      "ALL TESTS PASSED!" ∉ (eip1559.main wPre wPost fuel schedule).stdout) ∧
    ((eip1559.preHertzTests wPre).fatal = none →
      ∀ r, eip1559.postHertzTests wPost fuel = some r → r.fatal = none →
        "ALL TESTS PASSED!" ∈ (eip1559.main wPre wPost fuel schedule).stdout ∧
        (eip1559.main wPre wPost fuel schedule).exit = some 0) := by
  have honly : "ALL TESTS PASSED!" ∈ (eip1559.main wPre wPost fuel schedule).stdout →
      (eip1559.preHertzTests wPre).fatal = none ∧
      ∃ r, eip1559.postHertzTests wPost fuel = some r ∧ r.fatal = none := by
    intro hmem
    unfold eip1559.main at hmem
    have hprint : ∀ line, Event.print line ∈
        interleave schedule (eip1559.preHertzEvents wPre) (eip1559.postHertzEvents wPost fuel) →
        line ≠ "ALL TESTS PASSED!" := by
      intro line hl
      rw [mem_interleave] at hl
      rcases hl with hl | hl
      · rcases preHertzEvents_cases wPre with ⟨_, he⟩ | ⟨msg, _, he⟩ <;>
          simp [he] at hl
      · rcases postHertzEvents_cases wPost fuel with ⟨_, he⟩ | ⟨r, msg, _, _, he⟩ |
          ⟨r, _, _, he⟩
        · simp [he] at hl
        · simp [he] at hl
        · simp only [he, List.mem_cons, Event.print.injEq, List.mem_singleton,
            List.not_mem_nil, or_false] at hl
          rcases hl with hl | hl
          · rw [hl]
            decide
          · cases hl
    have hcount := mainWait_success_needs_done _ 2 [] (by decide) (by simp) hprint hmem
    rw [count_done_interleave] at hcount
    rcases preHertzEvents_cases wPre with ⟨hpre, he⟩ | ⟨msg, _, he⟩
    · rcases postHertzEvents_cases wPost fuel with ⟨_, he'⟩ | ⟨r, msg, _, _, he'⟩ |
        ⟨r, hr, hf, _⟩
      · rw [he, he'] at hcount
        simp at hcount
      · rw [he, he'] at hcount
        simp at hcount
      · exact ⟨hpre, r, hr, hf⟩
    · rcases postHertzEvents_cases wPost fuel with ⟨_, he'⟩ | ⟨r, msg', _, _, he'⟩ |
        ⟨r, _, _, he'⟩ <;>
      · rw [he, he'] at hcount
        simp at hcount
  refine ⟨?_, ?_, ?_, ?_, ?_⟩
  · intro hmem
    obtain ⟨hpre, r, hr, hf⟩ := honly hmem
    exact ⟨hpre, preHertzTests_pass_invoked wPre hpre, r, hr, hf,
      postHertzTests_pass_invoked wPost fuel r hr hf⟩
  · intro hfatal hmem
    exact hfatal (honly hmem).1
  · intro r hr hfatal hmem
    obtain ⟨_, r', hr', hf'⟩ := honly hmem
    rw [hr] at hr'
    cases hr'
    exact hfatal hf'
  · intro hnone hmem
    obtain ⟨_, r', hr', _⟩ := honly hmem
    rw [hnone] at hr'
    cases hr'
  · intro hpre r hr hf
    unfold eip1559.main
    have hA : eip1559.preHertzEvents wPre = [.done] := by
      unfold eip1559.preHertzEvents
      rw [hpre]
    have hB : eip1559.postHertzEvents wPost fuel = [.print "Tests passed!", .done] := by
      unfold eip1559.postHertzEvents
      rw [hr]
      simp only [hf]
    apply mainWait_success_of_done _ 2 [] (by decide)
    · intro msg hm
      rw [mem_interleave, hA, hB] at hm
      simp at hm
    · rw [count_done_interleave, hA, hB]
      simp

/-- C16 on a world that stays before the fork for the pre-Hertz phase and a world
after the fork for the post-Hertz phase: both phases pass and the success line is
printed, whatever the schedule. -/
theorem main_success_only_if_both_phases_pass_witness :
    (eip1559.preHertzTests preForkWorld).fatal = none ∧
    "ALL TESTS PASSED!" ∈ (eip1559.main preForkWorld postForkWorld 5 [true, false]).stdout ∧
    (eip1559.main preForkWorld postForkWorld 5 [true, false]).exit = some 0 :=
  ⟨preHertzTests_preForkWorld.1,
    postHertzTests_postForkWorld.elim fun r hr =>
      (main_success_only_if_both_phases_pass preForkWorld postForkWorld 5 [true, false]).2.2.2.2
        preHertzTests_preForkWorld.1 r hr.1 hr.2.1⟩

/-! ## Theorems: the height gate of the pre-Hertz phase -/

/-- C18. In a world whose height is 1 at every query, below `PreHertzBlockNumber`,
the pre-Hertz phases of eip1559 and of eip2930 invoke their test cases all the
same (and pass): they make one height query, for the too-late check, and never
wait for `PreHertzBlockNumber`. -/
theorem preHertzTests_run_below_PreHertzBlockNumber :
    (∀ k q, (preForkWorld.chain k).BlockNumber q = .ok 1) ∧
    1 < PreHertzBlockNumber ∧
    (eip1559.preHertzTests preForkWorld).invoked
      = [("testLegacyTxPreHertz", none), ("testDefaultDynamicFeeTxPreHertz", none),
          ("testSmallGasFeeCapDynamicFeeTxPreHertz", none),
          ("testSmallGasTipCapDynamicFeeTxPreHertz", none),
          ("testSuggestedPricesPreHertz", none)] ∧
    (eip1559.preHertzTests preForkWorld).fatal = none ∧
    (eip2930.preHertzTests preForkWorld).invoked = [("runPreHertz2930Tests", none)] ∧
    (eip2930.preHertzTests preForkWorld).fatal = none := by
  refine ⟨fun _ _ => rfl, by decide, ?_, preHertzTests_preForkWorld.1, rfl, rfl⟩
  rw [preHertzTests_preForkWorld.2]
  rfl

end Hertz
